import Mathlib

/-!
Verification development for the metadataapp repository.

The repository holds two Python entry points:
- src/instagram_meta.py, a Stash plugin that resolves an Instagram post URL
  for a catalog item, fetches the post metadata and writes it back through
  the host GraphQL API, and
- src/instagram_scraper.py, a scraper script that reads a URL on stdin and
  prints a JSON fragment.

Python values decoded from JSON are modelled by `Py.Val` (JSON numbers are
modelled as integers: the payloads involved carry integer timestamps, ids
and strings).  Python expressions that can raise are modelled in
`Except String`, the error string standing in for the exception.  Network,
filesystem and environment interactions are modelled as oracle fields of
`World` records consumed by the embedded `main` functions.
-/

namespace Py

/-- Python values as decoded from JSON (numbers restricted to integers). -/
inductive Val where
  | none
  | bool (b : Bool)
  | int (n : Int)
  | str (s : String)
  | list (xs : List Val)
  | dict (kvs : List (String × Val))

/-- Python truthiness, bool(v): None, False, 0, "", [], {} are falsy. -/
def truthy : Val → Bool
  | .none => false
  | .bool b => b
  | .int n => n != 0
  | .str s => s != ""
  | .list xs => !xs.isEmpty
  | .dict kvs => !kvs.isEmpty

/-- Dictionary key lookup (JSON objects have unique keys). -/
def findKey (kvs : List (String × Val)) (k : String) : Option Val :=
  (kvs.find? (fun kv => kv.1 == k)).map Prod.snd

/-- v.get(k, d): value at key k if present (even if falsy), else the
default d; AttributeError on non-dicts. -/
def getD (v : Val) (k : String) (d : Val) : Except String Val :=
  match v with
  | .dict kvs => .ok ((findKey kvs k).getD d)
  | _ => .error "AttributeError: get"

/-- v.get(k): as `getD` with default None. -/
def get (v : Val) (k : String) : Except String Val :=
  getD v k .none

/-- v[k] for a string key: KeyError when the key is missing, TypeError on
non-dict values (JSON object keys are strings, so d[0] is a KeyError on a
dict and a TypeError elsewhere except sequences). -/
def sub (v : Val) (k : String) : Except String Val :=
  match v with
  | .dict kvs =>
    match findKey kvs k with
    | some x => .ok x
    | Option.none => .error "KeyError"
  | _ => .error "TypeError: not subscriptable"

/-- v[0] as used on payload["items"]: sequence indexing.  Lists and
strings index; a dict raises KeyError (its keys are strings); other
values raise TypeError. -/
def index0 (v : Val) : Except String Val :=
  match v with
  | .list (x :: _) => .ok x
  | .list [] => .error "IndexError"
  | .str s =>
    match s.toList with
    | c :: _ => .ok (.str (String.mk [c]))
    | [] => .error "IndexError"
  | .dict _ => .error "KeyError"
  | _ => .error "TypeError: not subscriptable"

/-- for x in v: lists yield elements, strings characters, dicts keys. -/
def iterList : Val → Except String (List Val)
  | .list xs => .ok xs
  | .str s => .ok (s.toList.map (fun c => .str (String.mk [c])))
  | .dict kvs => .ok (kvs.map (fun kv => .str kv.1))
  | _ => .error "TypeError: not iterable"

mutual
/-- Python equality (==) on JSON values: booleans compare with integers by
numeric value, dictionaries by length plus pointwise key lookup (JSON
objects have unique keys, so the one-sided check with equal lengths is
dict equality). -/
def eqVal : Val → Val → Bool
  | .none, .none => true
  | .bool a, .bool b => a == b
  | .bool a, .int n => (if a then (1 : Int) else 0) == n
  | .int n, .bool a => n == (if a then (1 : Int) else 0)
  | .int a, .int b => a == b
  | .str a, .str b => a == b
  | .list a, .list b => eqList a b
  | .dict a, .dict b => a.length == b.length && eqDict a b
  | _, _ => false

def eqList : List Val → List Val → Bool
  | [], [] => true
  | a :: as, b :: bs => eqVal a b && eqList as bs
  | _, _ => false

def eqDict : List (String × Val) → List (String × Val) → Bool
  | [], _ => true
  | (k, v) :: rest, b =>
    (match findKey b k with
     | some w => eqVal v w
     | Option.none => false) && eqDict rest b
end

/-- Is k.toList a contiguous substring of the second list (Python
`k in s` on strings). -/
def hasSub (k : List Char) : List Char → Bool
  | [] => k.isEmpty
  | c :: rest => k.isPrefixOf (c :: rest) || hasSub k rest

/-- Python `k in v` for a string k. -/
def pyIn (k : String) (v : Val) : Except String Bool :=
  match v with
  | .dict kvs => .ok (kvs.any (fun kv => kv.1 == k))
  | .list xs => .ok (xs.any (fun x => eqVal x (.str k)))
  | .str s => .ok (hasSub k.toList s.toList)
  | _ => .error "TypeError: argument of type is not iterable"

mutual
/-- repr(v); string escaping inside reprs is elided (these strings are only
reachable in diagnostic messages). -/
def reprV : Val → String
  | .none => "None"
  | .bool true => "True"
  | .bool false => "False"
  | .int n => toString n
  | .str s => "\x27" ++ s ++ "\x27"
  | .list xs => "[" ++ reprList xs ++ "]"
  | .dict kvs => "\x7b" ++ reprDict kvs ++ "\x7d"

def reprList : List Val → String
  | [] => ""
  | [x] => reprV x
  | x :: rest => reprV x ++ ", " ++ reprList rest

def reprDict : List (String × Val) → String
  | [] => ""
  | [(k, v)] => "\x27" ++ k ++ "\x27: " ++ reprV v
  | (k, v) :: rest => "\x27" ++ k ++ "\x27: " ++ reprV v ++ ", " ++ reprDict rest
end

/-- str(v) as used in f-string interpolation. -/
def toStr : Val → String
  | .none => "None"
  | .bool true => "True"
  | .bool false => "False"
  | .int n => toString n
  | .str s => s
  | .list xs => reprV (.list xs)
  | .dict kvs => reprV (.dict kvs)

/-- Python string whitespace characters (ASCII subset of str.strip). -/
def isSpaceChar (c : Char) : Bool :=
  c == ' ' || c == '\t' || c == '\n' || c == '\r' || c == '\x0b' || c == '\x0c'

def stripWsL (cs : List Char) : List Char :=
  ((cs.dropWhile isSpaceChar).reverse.dropWhile isSpaceChar).reverse

/-- s.strip() (ASCII whitespace; the payloads involved are ASCII). -/
def stripWs (s : String) : String :=
  String.mk (stripWsL s.toList)

/-- s.strip(c) for a single character c. -/
def stripChar (c : Char) (s : String) : String :=
  String.mk (((s.toList.dropWhile (· == c)).reverse.dropWhile (· == c)).reverse)

def digitsToNat (cs : List Char) : Nat :=
  cs.foldl (fun a c => a * 10 + (c.toNat - 48)) 0

/-- int(s) on a string: optional sign and decimal digits after stripping
whitespace (numeric-literal underscores are not modelled). -/
def parseIntStr (s : String) : Except String Int :=
  let t := stripWsL s.toList
  match t with
  | '-' :: ds =>
    if !ds.isEmpty && ds.all (fun c => c.isDigit) then .ok (-(digitsToNat ds : Int))
    else .error "ValueError: invalid literal for int"
  | '+' :: ds =>
    if !ds.isEmpty && ds.all (fun c => c.isDigit) then .ok (digitsToNat ds : Int)
    else .error "ValueError: invalid literal for int"
  | ds =>
    if !ds.isEmpty && ds.all (fun c => c.isDigit) then .ok (digitsToNat ds : Int)
    else .error "ValueError: invalid literal for int"

/-- int(v): integers unchanged, booleans 0/1, strings parsed, TypeError
otherwise. -/
def toInt : Val → Except String Int
  | .int n => .ok n
  | .bool b => .ok (if b then 1 else 0)
  | .str s => parseIntStr s
  | _ => .error "TypeError: int() argument"

/-!
Calendar conversion.  `civilFromDays` embeds the calendar computation
performed by datetime.utcfromtimestamp: the proleptic Gregorian date of a
day count relative to 1970-01-01, computed by peeling 400-year eras,
centuries, 4-year quads and years (all divisions below are `Int.ediv`,
which is floor division for the positive constant divisors used).  Each
intermediate is a named definition so that the round-trip theorem against
`daysFromCivil` can be stated and proved step by step.
-/

/-- 400-year era index of the day count (era 0 starts 0000-03-01). -/
def cfdEra (z : Int) : Int := (z + 719468) / 146097

/-- Day of era, in [0, 146096]. -/
def cfdDoe (z : Int) : Int := z + 719468 - cfdEra z * 146097

def cfdCc0 (z : Int) : Int := cfdDoe z / 36524

/-- Century of era, in [0, 3] (the last century of an era is one day
longer). -/
def cfdCc (z : Int) : Int := if 3 < cfdCc0 z then 3 else cfdCc0 z

/-- Day of century. -/
def cfdR1 (z : Int) : Int := cfdDoe z - 36524 * cfdCc z

/-- Quad (4-year block) of century, in [0, 24]. -/
def cfdQ (z : Int) : Int := cfdR1 z / 1461

/-- Day of quad. -/
def cfdR2 (z : Int) : Int := cfdR1 z - 1461 * cfdQ z

def cfdYr0 (z : Int) : Int := cfdR2 z / 365

/-- Year of quad, in [0, 3] (the last year of a quad may be a leap
year). -/
def cfdYr (z : Int) : Int := if 3 < cfdYr0 z then 3 else cfdYr0 z

/-- Day of the March-based year, in [0, 365]. -/
def cfdDoy (z : Int) : Int := cfdR2 z - 365 * cfdYr z

/-- Year of era, in [0, 399]. -/
def cfdYoe (z : Int) : Int := 100 * cfdCc z + 4 * cfdQ z + cfdYr z

/-- March-based month index, in [0, 11] (0 = March). -/
def cfdMp (z : Int) : Int := (5 * cfdDoy z + 2) / 153

/-- Civil day of month, in [1, 31]. -/
def cfdD (z : Int) : Int := cfdDoy z - (153 * cfdMp z + 2) / 5 + 1

/-- Civil month, in [1, 12]. -/
def cfdM (z : Int) : Int := cfdMp z + (if cfdMp z < 10 then 3 else -9)

/-- Civil year (January and February belong to the following civil
year). -/
def cfdY (z : Int) : Int :=
  cfdYoe z + cfdEra z * 400 + (if cfdM z ≤ 2 then 1 else 0)

/-- Proleptic Gregorian date (year, month, day) of a day count relative to
1970-01-01. -/
def civilFromDays (z : Int) : Int × Int × Int := (cfdY z, cfdM z, cfdD z)

/-!
`daysFromCivil` is the standard days-from-civil computation, the inverse
used to certify `civilFromDays`; its intermediates are likewise named.
-/

def dfcY2 (y m : Int) : Int := y - (if m ≤ 2 then 1 else 0)

def dfcEra (y m : Int) : Int := dfcY2 y m / 400

def dfcYoe (y m : Int) : Int := dfcY2 y m - dfcEra y m * 400

def dfcMp (m : Int) : Int := m + (if 2 < m then -3 else 9)

def dfcDoy (m d : Int) : Int := (153 * dfcMp m + 2) / 5 + d - 1

def dfcDoe (y m d : Int) : Int :=
  dfcYoe y m * 365 + dfcYoe y m / 4 - dfcYoe y m / 100 + dfcDoy m d

/-- Inverse day count of a civil date (days since 1970-01-01). -/
def daysFromCivil (y m d : Int) : Int :=
  dfcEra y m * 146097 + dfcDoe y m d - 719468
/-- Zero-padded decimal rendering of a nonnegative component (strftime
%Y / %m / %d padding as documented for datetime). -/
def pad (width : Nat) (n : Int) : String :=
  let s := toString n.toNat
  String.mk (List.replicate (width - s.length) '0') ++ s

/-- datetime.utcfromtimestamp(ts).strftime("%Y-%m-%d"): the UTC calendar
date of the Unix timestamp; raises when the year leaves 1..9999 exactly as
the datetime range does. -/
def utcDateStr (ts : Int) : Except String String :=
  let ymd := civilFromDays (ts / 86400)
  if ymd.1 < 1 || 9999 < ymd.1 then .error "ValueError: year out of range"
  else .ok (pad 4 ymd.1 ++ "-" ++ pad 2 ymd.2.1 ++ "-" ++ pad 2 ymd.2.2)

end Py

namespace Shortcode

/-!
Both source files compile the same regular expression

  SHORTCODE_RE = re.compile(r"(?:instagram\\.com/(?:reel|p|tv)/|/reel/|/p/|/tv/)([A-Za-z0-9_-]\x7b5,\x7d)")

(instagram_meta.py line 87, instagram_scraper.py line 37).  Note that the
raw-string source instagram\\.com denotes the regex literal backslash
followed by the any-character dot, so the first alternative matches
"instagram", a literal backslash, any one character except newline, then
"com/"; it does not match the plain text "instagram.com/".  The capture
group is a greedy run of at least five word characters with nothing after
it, so a match at a position is exactly: an alternative matches literally,
and the maximal [A-Za-z0-9_-] run that follows has length at least five.
re.search returns the leftmost such position.
-/

/-- The character class [A-Za-z0-9_-]. -/
def isWordChar (c : Char) : Bool :=
  c.isAlpha || c.isDigit || c == '_' || c == '-'

/-- Match a literal character sequence at the head of a list, returning
the remainder. -/
def lit : List Char → List Char → Option (List Char)
  | [], s => some s
  | _ :: _, [] => Option.none
  | l :: ls, c :: cs => if c = l then lit ls cs else Option.none

/-- The three bare path-marker alternatives of SHORTCODE_RE, tried in the
regex alternation order (they are mutually exclusive). -/
def markerMatch (s : List Char) : Option (List Char) :=
  match lit ['/', 'r', 'e', 'e', 'l', '/'] s with
  | some t => some t
  | Option.none =>
    match lit ['/', 'p', '/'] s with
    | some t => some t
    | Option.none => lit ['/', 't', 'v', '/'] s

/-- The literal part of the first regex alternative before its marker
slash: "instagram", a literal backslash, one character other than newline
(the regex dot), then "com".  The slash that follows "com" is part of the
marker handled by `markerMatch`. -/
def igCodeStrip (s : List Char) : Option (List Char) :=
  match lit ['i', 'n', 's', 't', 'a', 'g', 'r', 'a', 'm', '\\'] s with
  | some (x :: t2) =>
    if x = '\n' then Option.none else lit ['c', 'o', 'm'] t2
  | some [] => Option.none
  | Option.none => Option.none

/-- The full alternation of SHORTCODE_RE at one position: the instagram
alternative first, then the bare markers. -/
def codeAlt (s : List Char) : Option (List Char) :=
  match igCodeStrip s with
  | some t =>
    match markerMatch t with
    | some r => some r
    | Option.none => markerMatch s
  | Option.none => markerMatch s

/-- The greedy capture group: the maximal word-character run, accepted if
it has length at least five. -/
def capture5 (r : List Char) : Option (List Char) :=
  let cap := r.takeWhile isWordChar
  if 5 ≤ cap.length then some cap else Option.none

/-- re.search: scan positions left to right; at each position try the
alternation and then the capture, else advance one character. -/
def searchWith (alt : List Char → Option (List Char)) : List Char → Option (List Char)
  | [] => Option.none
  | c :: rest =>
    match alt (c :: rest) with
    | some r =>
      match capture5 r with
      | some cap => some cap
      | Option.none => searchWith alt rest
    | Option.none => searchWith alt rest

/-- The literal "instagram.com" as read in the specification text. -/
def specIgStrip (s : List Char) : Option (List Char) :=
  lit ['i', 'n', 's', 't', 'a', 'g', 'r', 'a', 'm', '.', 'c', 'o', 'm'] s

/-- The alternation as the specification describes it: one of the path
markers "/p/", "/reel/", "/tv/", or the text "instagram.com/" followed by
p, reel or tv and a slash (again the final slash of "instagram.com/" is
the leading slash of the marker). -/
def specAlt (s : List Char) : Option (List Char) :=
  match markerMatch s with
  | some r => some r
  | Option.none =>
    match specIgStrip s with
    | some t => markerMatch t
    | Option.none => Option.none

/-- The specification reading of the extraction: the first maximal run of
at least five characters from [A-Za-z0-9_-] immediately following one of
the path markers (or the instagram.com pattern), None when no such run
occurs. -/
def specExtract (url : String) : Option String :=
  (searchWith specAlt url.toList).map (fun cs => String.mk cs)

end Shortcode

namespace IGMeta

/-- src/instagram_meta.py, _extract_shortcode (lines 90-94): None for the
empty string, else SHORTCODE_RE.search with the first capture group. -/
def extract_shortcode (url : String) : Option String :=
  if url == "" then Option.none
  else (Shortcode.searchWith Shortcode.codeAlt url.toList).map (fun cs => String.mk cs)

end IGMeta

namespace IGScraper

/-- src/instagram_scraper.py, _extract_shortcode (lines 40-44), textually
identical to the instagram_meta.py function. -/
def extract_shortcode (url : String) : Option String :=
  if url == "" then Option.none
  else (Shortcode.searchWith Shortcode.codeAlt url.toList).map (fun cs => String.mk cs)

end IGScraper

example : Py.utcDateStr 0 = .ok "1970-01-01" := by rfl
example : Py.utcDateStr 86399 = .ok "1970-01-01" := by rfl
example : Py.utcDateStr 86400 = .ok "1970-01-02" := by rfl
example : Py.utcDateStr 951782400 = .ok "2000-02-29" := by rfl
example : Py.utcDateStr 951868800 = .ok "2000-03-01" := by rfl
example : Py.utcDateStr 1700000000 = .ok "2023-11-14" := by rfl
example : Py.utcDateStr (-1) = .ok "1969-12-31" := by rfl
example : Py.parseIntStr " 123 " = .ok 123 := by rfl
example : Py.parseIntStr "-45" = .ok (-45) := by rfl
example : Py.truthy (.int 0) = false := by decide


namespace Py

/-- isinstance(v, list). -/
def isList : Val → Bool
  | .list _ => true
  | _ => false

/-- isinstance(v, dict). -/
def isDict : Val → Bool
  | .dict _ => true
  | _ => false

/-- isinstance(v, str). -/
def isStr : Val → Bool
  | .str _ => true
  | _ => false

end Py

/-- The dictionary returned by _parse_instagram_payload, with its four
fixed keys caption, date, username, permalink (a non-empty dict, hence
always truthy). -/
structure MetaRec where
  caption : Py.Val
  date : Py.Val
  username : Py.Val
  permalink : Py.Val

namespace IGMeta

/-- src/instagram_meta.py lines 117-124: media selection.  When the
shortcode_media chain yields a truthy value the re-subscripted
payload["graphql"]["shortcode_media"] is that same value (the key chain
must be present for the get-chain to be truthy); likewise for
payload["items"].  Returns Val.none when media stays None. -/
def mediaSel (payload : Py.Val) : Except String Py.Val := do
  let g ← Py.getD payload "graphql" (.dict [])
  let sm ← Py.get g "shortcode_media"
  if Py.truthy sm then
    pure sm
  else do
    let it ← Py.get payload "items"
    if Py.truthy it then
      Py.index0 it
    else
      pure Py.Val.none

/-- Lines 126-133: caption extraction with fallbacks. -/
def captionOf (media : Py.Val) : Except String Py.Val := do
  let e0 ← Py.getD media "edge_media_to_caption" (.dict [])
  let edges ← Py.get e0 "edges"
  let capEdges ← if Py.truthy edges then pure edges else Py.get media "caption"
  let cap1 ←
    if Py.isList capEdges && Py.truthy capEdges then do
      let c0 ← Py.index0 capEdges
      let node ← if Py.isDict c0 then Py.get c0 "node" else pure Py.Val.none
      if Py.truthy node then
        Py.get node "text"
      else
        if Py.isDict c0 then Py.get c0 "text" else pure Py.Val.none
    else
      pure Py.Val.none
  if Py.truthy cap1 then
    pure cap1
  else do
    let mc ← Py.get media "caption"
    if Py.isDict mc then do
      let mc2 ← Py.sub media "caption"
      Py.get mc2 "text"
    else
      pure cap1

/-- Lines 135-139: taken_at_timestamp or taken_at, formatted as a UTC
date when truthy. -/
def dateOf (media : Py.Val) : Except String Py.Val := do
  let t1 ← Py.get media "taken_at_timestamp"
  let ts ← if Py.truthy t1 then pure t1 else Py.get media "taken_at"
  if Py.truthy ts then do
    let n ← Py.toInt ts
    let s ← Py.utcDateStr n
    pure (Py.Val.str s)
  else
    pure Py.Val.none

/-- Lines 141-144: owner or user, then username. -/
def usernameOf (media : Py.Val) : Except String Py.Val := do
  let o1 ← Py.get media "owner"
  let owner ← if Py.truthy o1 then pure o1 else Py.get media "user"
  if Py.isDict owner then Py.get owner "username" else pure Py.Val.none

/-- Line 146: media.get("shortcode") and canonical-url or fallback_url
(the Python and/or chain: a falsy shortcode propagates, a truthy one
yields the non-empty canonical URL string). -/
def permalinkOf (media : Py.Val) (fallback : Py.Val) : Except String Py.Val := do
  let sc ← Py.get media "shortcode"
  let pl := if Py.truthy sc
    then Py.Val.str ("https://www.instagram.com/p/" ++ Py.toStr sc ++ "/")
    else sc
  pure (if Py.truthy pl then pl else fallback)

/-- src/instagram_meta.py, _parse_instagram_payload (lines 116-156). -/
def parsePayload (payload : Py.Val) (fallback : Py.Val) :
    Except String (Option MetaRec) := do
  let media ← mediaSel payload
  if !Py.truthy media then
    pure Option.none
  else do
    let caption ← captionOf media
    let date ← dateOf media
    let username ← usernameOf media
    let permalink ← permalinkOf media fallback
    if !(Py.truthy caption || Py.truthy date || Py.truthy username
        || Py.truthy permalink) then
      pure Option.none
    else
      pure (some
        { caption := if Py.truthy caption then caption else Py.Val.str ""
          date := date
          username := username
          permalink := if Py.truthy permalink then permalink else fallback })

end IGMeta

namespace IGScraper

/-- src/instagram_scraper.py lines 68-74, textually identical to the
instagram_meta.py selection. -/
def mediaSel (payload : Py.Val) : Except String Py.Val := do
  let g ← Py.getD payload "graphql" (.dict [])
  let sm ← Py.get g "shortcode_media"
  if Py.truthy sm then
    pure sm
  else do
    let it ← Py.get payload "items"
    if Py.truthy it then
      Py.index0 it
    else
      pure Py.Val.none

/-- Lines 76-82. -/
def captionOf (media : Py.Val) : Except String Py.Val := do
  let e0 ← Py.getD media "edge_media_to_caption" (.dict [])
  let edges ← Py.get e0 "edges"
  let capEdges ← if Py.truthy edges then pure edges else Py.get media "caption"
  let cap1 ←
    if Py.isList capEdges && Py.truthy capEdges then do
      let c0 ← Py.index0 capEdges
      let node ← if Py.isDict c0 then Py.get c0 "node" else pure Py.Val.none
      if Py.truthy node then
        Py.get node "text"
      else
        if Py.isDict c0 then Py.get c0 "text" else pure Py.Val.none
    else
      pure Py.Val.none
  if Py.truthy cap1 then
    pure cap1
  else do
    let mc ← Py.get media "caption"
    if Py.isDict mc then do
      let mc2 ← Py.sub media "caption"
      Py.get mc2 "text"
    else
      pure cap1

/-- Lines 84-87. -/
def dateOf (media : Py.Val) : Except String Py.Val := do
  let t1 ← Py.get media "taken_at_timestamp"
  let ts ← if Py.truthy t1 then pure t1 else Py.get media "taken_at"
  if Py.truthy ts then do
    let n ← Py.toInt ts
    let s ← Py.utcDateStr n
    pure (Py.Val.str s)
  else
    pure Py.Val.none

/-- Lines 89-92. -/
def usernameOf (media : Py.Val) : Except String Py.Val := do
  let o1 ← Py.get media "owner"
  let owner ← if Py.truthy o1 then pure o1 else Py.get media "user"
  if Py.isDict owner then Py.get owner "username" else pure Py.Val.none

/-- Line 94. -/
def permalinkOf (media : Py.Val) (fallback : Py.Val) : Except String Py.Val := do
  let sc ← Py.get media "shortcode"
  let pl := if Py.truthy sc
    then Py.Val.str ("https://www.instagram.com/p/" ++ Py.toStr sc ++ "/")
    else sc
  pure (if Py.truthy pl then pl else fallback)

/-- src/instagram_scraper.py, _parse_instagram_payload (lines 67-104),
textually identical to the instagram_meta.py function. -/
def parsePayload (payload : Py.Val) (fallback : Py.Val) :
    Except String (Option MetaRec) := do
  let media ← mediaSel payload
  if !Py.truthy media then
    pure Option.none
  else do
    let caption ← captionOf media
    let date ← dateOf media
    let username ← usernameOf media
    let permalink ← permalinkOf media fallback
    if !(Py.truthy caption || Py.truthy date || Py.truthy username
        || Py.truthy permalink) then
      pure Option.none
    else
      pure (some
        { caption := if Py.truthy caption then caption else Py.Val.str ""
          date := date
          username := username
          permalink := if Py.truthy permalink then permalink else fallback })

end IGScraper


namespace IGMeta

/-!
Sidecar handling (src/instagram_meta.py lines 159-180).  Media paths are
modelled by their file name string (directory components play no role in
the suffix manipulation below and the filesystem oracle is keyed by the
resulting candidate string).  `suffixSplit` embeds the CPython pathlib
rule: the suffix starts at the last dot when that dot is neither the
first nor the last character of the name.
-/

/-- Split a file name into stem and suffix (pathlib: name[:i], name[i:]
for i = name.rfind(".") when 0 < i < len(name) - 1, else no suffix: an
empty takeWhile means the dot is trailing, an empty drop remainder means
the dot is leading, and both cases produce no suffix). -/
def suffixSplit (cs : List Char) : List Char × List Char :=
  match cs.reverse.dropWhile (fun c => !(c == '.')) with
  | [] => (cs, [])
  | _ :: rest2 =>
    match cs.reverse.takeWhile (fun c => !(c == '.')) with
    | [] => (cs, [])
    | a :: as =>
      if rest2.isEmpty then (cs, [])
      else (rest2.reverse, '.' :: (a :: as).reverse)

/-- p.suffix. -/
def pathSuffix (name : String) : String :=
  String.mk (suffixSplit name.toList).2

/-- p.with_suffix(sfx): replaces the old suffix; raises ValueError on an
empty name (the new suffixes built below are always of the valid
dot-initial shape). -/
def withSuffix (name : String) (sfx : String) : Except String String :=
  if name = "" then .error "ValueError: empty name"
  else .ok (String.mk (suffixSplit name.toList).1 ++ sfx)

/-- p.with_suffix(p.suffix + ext) as in line 163. -/
def candidate (name : String) (ext : String) : Except String String :=
  withSuffix name (pathSuffix name ++ ext)

/-- Filesystem oracle: for a candidate path, none when the file does not
exist, some (.error ()) when it exists but reading or JSON-parsing fails
(the exception the code catches), some (.ok v) for parsed contents v. -/
def FS : Type := String → Option (Except Unit Py.Val)

/-- One candidate probe of the inner loop (lines 163-169): the data when
the file exists and parses, none to continue. -/
def probeOne (fs : FS) (p : String) (ext : String) :
    Except String (Option Py.Val) := do
  let c ← candidate p ext
  match fs c with
  | some (.ok v) => pure (some v)
  | some (.error _) => pure Option.none
  | Option.none => pure Option.none

/-- src/instagram_meta.py, _load_sidecar_data (lines 160-170). -/
def loadSidecar (fs : FS) : List String → Except String (Option Py.Val)
  | [] => .ok Option.none
  | p :: rest => do
    let r1 ← probeOne fs p ".info.json"
    match r1 with
    | some v => pure (some v)
    | Option.none => do
      let r2 ← probeOne fs p ".json"
      match r2 with
      | some v => pure (some v)
      | Option.none => loadSidecar fs rest

/-- src/instagram_meta.py, _sidecar_to_url (lines 173-180). -/
def sidecarToUrl (data : Py.Val) : Except String (Option Py.Val) := do
  let b1 ← Py.pyIn "webpage_url" data
  let v1 ← if b1 then Py.sub data "webpage_url" else pure Py.Val.none
  if b1 && Py.truthy v1 then
    pure (some v1)
  else do
    let b2 ← Py.pyIn "permalink" data
    let v2 ← if b2 then Py.sub data "permalink" else pure Py.Val.none
    if b2 && Py.truthy v2 then
      pure (some v2)
    else do
      let b3 ← Py.pyIn "url" data
      let v3 ← if b3 then Py.sub data "url" else pure Py.Val.none
      if b3 && Py.truthy v3 then
        pure (some v3)
      else do
        let s1 ← Py.get data "shortcode"
        let sc ← if Py.truthy s1 then pure s1 else Py.get data "shortcode_id"
        if Py.truthy sc then
          pure (some (.str ("https://www.instagram.com/p/" ++ Py.toStr sc ++ "/")))
        else
          pure Option.none

/-- Specification reading of the candidate list: each path name with
".info.json" appended then with ".json" appended, paths in order. -/
def sidecarCandidates (paths : List String) : List String :=
  paths.flatMap (fun p => [p ++ ".info.json", p ++ ".json"])

/-- Specification reading of the lookup: the first candidate that exists
and parses is used; a candidate that exists but fails to parse is
skipped. -/
def firstParse (fs : FS) : List String → Option Py.Val
  | [] => Option.none
  | c :: rest =>
    match fs c with
    | some (.ok v) => some v
    | _ => firstParse fs rest

/-- A key lookup that also applies the truthiness filter of line 175. -/
def keyHit (kvs : List (String × Py.Val)) (k : String) : Option Py.Val :=
  match Py.findKey kvs k with
  | some v => if Py.truthy v then some v else Option.none
  | Option.none => Option.none

/-- Specification reading of the sidecar URL: webpage_url, permalink,
url in that order (first truthy value), else the canonical URL built
from shortcode or shortcode_id, else None. -/
def specSidecarUrl (kvs : List (String × Py.Val)) : Option Py.Val :=
  match keyHit kvs "webpage_url" with
  | some v => some v
  | Option.none =>
    match keyHit kvs "permalink" with
    | some v => some v
    | Option.none =>
      match keyHit kvs "url" with
      | some v => some v
      | Option.none =>
        let s1 := (Py.findKey kvs "shortcode").getD Py.Val.none
        let sc := if Py.truthy s1 then s1
          else (Py.findKey kvs "shortcode_id").getD Py.Val.none
        if Py.truthy sc then
          some (.str ("https://www.instagram.com/p/" ++ Py.toStr sc ++ "/"))
        else
          Option.none

end IGMeta


namespace Py

/-- Python `v is None`. -/
def isNone : Val → Bool
  | .none => true
  | _ => false

end Py

namespace IGScraper

/-- Oracle record for one run of the scraper: standard input, the outcome
of json.loads on it, the environment cookie, and the outcome of the
Instagram request (an error for a raising requests.get, else the status
code and the outcome of resp.json()). -/
structure SWorld where
  stdin : String
  jsonLoads : Except String Py.Val
  env_sessionid : Option String
  igReq : Except String (Int × Except String Py.Val)

/-- src/instagram_scraper.py, _read_url (lines 23-35). -/
def read_url (w : SWorld) : Py.Val :=
  let raw := Py.stripWs w.stdin
  if raw = "" then .str ""
  else
    match w.jsonLoads with
    | .error _ => .str (Py.stripChar '"' (Py.stripWs raw))
    | .ok (.str s) => .str s
    | .ok (.dict kvs) =>
      let u1 := (Py.findKey kvs "url").getD Py.Val.none
      let u2 := if Py.truthy u1 then u1 else (Py.findKey kvs "URL").getD Py.Val.none
      let u3 := if Py.truthy u2 then u2 else (Py.findKey kvs "Url").getD Py.Val.none
      if Py.truthy u3 then u3 else .str ""
    | .ok _ => .str ""

/-- src/instagram_scraper.py, _fetch_instagram_json (lines 47-64): every
failure is caught and yields None. -/
def fetch (w : SWorld) : Option Py.Val :=
  match w.igReq with
  | .error _ => Option.none
  | .ok (st, body) =>
    if st ≠ 200 then Option.none
    else
      match body with
      | .ok v => some v
      | .error _ => Option.none

/-- What a completed scraper run prints: the empty JSON object together
with the stderr diagnostic of _fail, or the json.dumps of the result
fragment. -/
inductive SPrint where
  | emptyObj (diag : String)
  | frag (kvs : List (String × Py.Val))

/-- Lines 128-136: the result fragment, keys in source order. -/
def buildFragment (m : MetaRec) : List (String × Py.Val) :=
  (if Py.truthy m.caption then [("Title", m.caption)] else []) ++
  (if Py.truthy m.date then [("Date", m.date)] else []) ++
  (if Py.truthy m.permalink then [("URL", m.permalink)] else []) ++
  (if Py.truthy m.username
   then [("Tags", Py.Val.list [Py.Val.dict [("Name", m.username)]])] else [])

/-- _extract_shortcode applied to the value produced by _read_url: a
falsy value is never passed (main returns first), a truthy non-string
makes re.search raise. -/
def extractPy (v : Py.Val) : Except String (Option String) :=
  if Py.truthy v = false then .ok Option.none
  else
    match v with
    | .str s => .ok (extract_shortcode s)
    | _ => .error "TypeError: expected string or bytes-like object"

/-- src/instagram_scraper.py, main (lines 106-138). -/
def smain (w : SWorld) : Except String SPrint := do
  let url := read_url w
  if ¬Py.truthy url then
    pure (.emptyObj "No URL provided to scraper script.")
  else do
    let sc? ← extractPy url
    match sc? with
    | Option.none =>
      pure (.emptyObj ("Could not extract Instagram shortcode from URL: "
        ++ Py.toStr url))
    | some _ =>
      match fetch w with
      | Option.none =>
        pure (.emptyObj "Failed to fetch Instagram metadata (check IG_SESSIONID or URL).")
      | some payload =>
        if ¬Py.truthy payload then
          pure (.emptyObj "Failed to fetch Instagram metadata (check IG_SESSIONID or URL).")
        else do
          let meta? ← parsePayload payload url
          match meta? with
          | Option.none =>
            pure (.emptyObj "Instagram response did not contain expected fields.")
          | some m => pure (.frag (buildFragment m))

end IGScraper

namespace IGMeta

/-- The JSON object printed by _respond (lines 33-37): always the output
key, plus an error key carrying the same message when the error flag is
set. -/
def respondObj (msg : String) (err : Bool) : List (String × Py.Val) :=
  [("output", Py.Val.str msg)] ++ (if err then [("error", Py.Val.str msg)] else [])

/-- Oracle record for one run of the plugin.  The _graphql calls are
network interactions with the host; each call site has its own oracle
field for the `data` object _graphql returns (an error models any raised
exception: network failure, raise_for_status, or the errors branch). -/
structure World where
  stdin_parse : Except String Py.Val
  env_sessionid : Option String
  findItem : Except String Py.Val
  fs : FS
  igReq : Except String (Int × Except String Py.Val)
  allTags : Py.Val → Except String Py.Val
  tagCreate : Py.Val → Except String Py.Val
  updateRes : Except String Py.Val

/-- Observable outcome of one run of instagram_meta.main.  `result` is
the single _respond call (message and error flag) or the uncaught
exception.  The remaining fields are ghost observations recorded at the
respond sites: which respond site fired (1 input-parse failure, 2 target
detection failure, 3 item not found, 4 no source URL, 5 no shortcode,
6 fetch failed, 7 missing fields, 8 summary), the three URL candidates
and the resolved source URL, the shortcode whose metadata was fetched,
the input object sent by the update mutation, and the name passed to
tagCreate when a tag was created.  On uncaught-exception runs the ghost
fields of inner stages are not asserted. -/
structure Run where
  result : Except String (String × Bool)
  site : Option Nat := Option.none
  urlCand : Option (Py.Val × Py.Val × Py.Val) := Option.none
  srcUrl : Option Py.Val := Option.none
  fetched : Option String := Option.none
  sentUpdate : Option (List (String × Py.Val)) := Option.none
  createdTag : Option Py.Val := Option.none

/-- Propagate an uncaught exception out of main. -/
def tryR (x : Except String α) (k : α → Run) : Run :=
  match x with
  | .error e => { result := .error e }
  | .ok v => k v

/-- _detect_target fallback on explicit args (lines 78-83). -/
def detectArgs (args : Py.Val) : Except String (Py.Val × String) := do
  let a1 ← Py.get args "target_type"
  let tt ← if Py.truthy a1 then pure a1 else Py.get args "type"
  let b1 ← Py.get args "target_id"
  let tid ← if Py.truthy b1 then pure b1 else Py.get args "id"
  if (Py.eqVal (.str "Scene") tt || Py.eqVal (.str "Image") tt) && Py.truthy tid then
    pure (tt, Py.toStr tid)
  else
    .error "Unable to determine target Scene/Image id from hookContext or args."

/-- src/instagram_meta.py, _detect_target (lines 64-83); the hookContext
branch probes type/__typename/id and then the six explicit id keys in
source order. -/
def detect_target (hook_ctx args : Py.Val) : Except String (Py.Val × String) :=
  match hook_ctx with
  | .dict kvs =>
    let t1 := (Py.findKey kvs "type").getD Py.Val.none
    let ctxType := if Py.truthy t1 then t1
      else (Py.findKey kvs "__typename").getD Py.Val.none
    let ctxId := (Py.findKey kvs "id").getD Py.Val.none
    if (Py.eqVal (.str "Scene") ctxType || Py.eqVal (.str "Image") ctxType)
        && Py.truthy ctxId then
      pure (ctxType, Py.toStr ctxId)
    else if (Py.findKey kvs "sceneId").isSome then
      pure (.str "Scene", Py.toStr ((Py.findKey kvs "sceneId").getD Py.Val.none))
    else if (Py.findKey kvs "scene_id").isSome then
      pure (.str "Scene", Py.toStr ((Py.findKey kvs "scene_id").getD Py.Val.none))
    else if (Py.findKey kvs "sceneID").isSome then
      pure (.str "Scene", Py.toStr ((Py.findKey kvs "sceneID").getD Py.Val.none))
    else if (Py.findKey kvs "imageId").isSome then
      pure (.str "Image", Py.toStr ((Py.findKey kvs "imageId").getD Py.Val.none))
    else if (Py.findKey kvs "image_id").isSome then
      pure (.str "Image", Py.toStr ((Py.findKey kvs "image_id").getD Py.Val.none))
    else if (Py.findKey kvs "imageID").isSome then
      pure (.str "Image", Py.toStr ((Py.findKey kvs "imageID").getD Py.Val.none))
    else
      detectArgs args
  | _ => detectArgs args

/-- src/instagram_meta.py, _get_item (lines 204-228): one _graphql call,
then data.get("findScene") or data.get("findImage"). -/
def get_item (w : World) (ty : Py.Val) : Except String Py.Val := do
  let d ← w.findItem
  if Py.eqVal ty (.str "Scene") then Py.get d "findScene"
  else Py.get d "findImage"

/-- src/instagram_meta.py, _ensure_tag (lines 184-200).  The boolean
records whether tagCreate was invoked. -/
def ensure_tag (w : World) (name : Py.Val) : Except String (Py.Val × Bool) := do
  let d ← w.allTags name
  let e0 ← Py.get d "allTags"
  let existing := if Py.truthy e0 then e0 else Py.Val.list []
  if Py.truthy existing then do
    let first ← Py.index0 existing
    let tid ← Py.sub first "id"
    pure (tid, false)
  else do
    let r ← w.tagCreate name
    let tc ← Py.sub r "tagCreate"
    let tid ← Py.sub tc "id"
    pure (tid, true)

/-- The input object of _update_item (line 245): the id merged with the
updates whose values are not None. -/
def updateInput (item_id : String) (updates : List (String × Py.Val)) :
    List (String × Py.Val) :=
  ("id", Py.Val.str item_id) :: updates.filter (fun kv => !Py.isNone kv.2)

/-- Path(v): only string paths construct. -/
def pyPathOf : Py.Val → Except String String
  | .str s => .ok s
  | _ => .error "TypeError: argument should be a str or an os.PathLike object"

/-- Lines 282-284: paths of the scene files that have a truthy path. -/
def pathsOfFiles : List Py.Val → Except String (List String)
  | [] => .ok []
  | f :: rest => do
    let p0 ← Py.get f "path"
    if Py.truthy p0 then do
      let pv ← Py.sub f "path"
      let s ← pyPathOf pv
      let tail ← pathsOfFiles rest
      pure (s :: tail)
    else
      pathsOfFiles rest

/-- Lines 280-287: the media file paths of the item. -/
def filePaths (ty item : Py.Val) : Except String (List String) :=
  if Py.eqVal ty (.str "Scene") then do
    let files0 ← Py.get item "files"
    let files := if Py.truthy files0 then files0 else .list []
    let fl ← Py.iterList files
    pathsOfFiles fl
  else do
    let p0 ← Py.get item "path"
    if Py.truthy p0 then do
      let s ← pyPathOf p0
      pure [s]
    else
      pure []

/-- src/instagram_meta.py, _fetch_instagram_json (lines 97-113): the
requests.get call is not guarded, so its failure propagates; a non-200
status or an undecodable body is caught and yields None. -/
def fetchMeta (w : World) : Except String (Option Py.Val) :=
  match w.igReq with
  | .error e => .error e
  | .ok (st, body) =>
    if st ≠ 200 then .ok Option.none
    else
      match body with
      | .ok v => .ok (some v)
      | .error _ => .ok Option.none

/-- _extract_shortcode applied to source_url, which is a Py value: falsy
never reaches it, a truthy non-string makes re.search raise. -/
def extractPy (v : Py.Val) : Except String (Option String) :=
  if Py.truthy v = false then .ok Option.none
  else
    match v with
    | .str s => .ok (extract_shortcode s)
    | _ => .error "TypeError: expected string or bytes-like object"

/-- Lines 321: the ids of the tags currently on the item. -/
def idsOf : List Py.Val → Except String (List Py.Val)
  | [] => .ok []
  | t :: rest => do
    let i ← Py.sub t "id"
    let tail ← idsOf rest
    pure (i :: tail)

def tagIds (item : Py.Val) : Except String (List Py.Val) := do
  let tg0 ← Py.get item "tags"
  let tgs := if Py.truthy tg0 then tg0 else .list []
  let l ← Py.iterList tgs
  idsOf l

/-- Lines 330-338: the summary bits of the success response. -/
def summaryMsg (ty : Py.Val) (item_id : String) (meta : MetaRec)
    (updates : List (String × Py.Val)) : String :=
  "Updated Instagram metadata: " ++ String.intercalate ", "
    [ "type=" ++ Py.toStr ty
    , "id=" ++ item_id
    , "title=" ++ (if updates.any (fun kv => kv.1 == "title") then "set" else "kept")
    , "date=" ++ Py.toStr (if Py.truthy meta.date then meta.date else .str "n/a")
    , "url=" ++ Py.toStr meta.permalink
    , "tag=" ++ Py.toStr (if Py.truthy meta.username then meta.username else .str "n/a") ]

/-- Lines 328-338: dispatch the update mutation and respond with the
summary. -/
def finish (w : World) (ty : Py.Val) (item_id : String)
    (cand : Py.Val × Py.Val × Py.Val) (src : Py.Val) (sc : String)
    (meta : MetaRec) (updates : List (String × Py.Val))
    (created : Option Py.Val) : Run :=
  match w.updateRes with
  | .error e =>
    { result := .error e, urlCand := some cand, srcUrl := some src,
      fetched := some sc, sentUpdate := some (updateInput item_id updates),
      createdTag := created }
  | .ok _ =>
    { result := .ok (summaryMsg ty item_id meta updates, false), site := some 8,
      urlCand := some cand, srcUrl := some src, fetched := some sc,
      sentUpdate := some (updateInput item_id updates), createdTag := created }

/-- Line 313: the title update is made when overwrite is set or the item
title is falsy (the item probe is short-circuited away under
overwrite). -/
def condTitle (overwrite : Bool) (item : Py.Val) : Except String Bool :=
  if overwrite then pure true
  else do
    let t0 ← Py.get item "title"
    pure (¬Py.truthy t0)

/-- Line 315: the date update needs a truthy parsed date, then overwrite
or a falsy item date. -/
def condDate (overwrite : Bool) (item : Py.Val) (meta : MetaRec) :
    Except String Bool :=
  if ¬Py.truthy meta.date then pure false
  else if overwrite then pure true
  else do
    let d0 ← Py.get item "date"
    pure (¬Py.truthy d0)

/-- Line 317: the url update is made when overwrite is set or the item
url is falsy. -/
def condUrl (overwrite : Bool) (item : Py.Val) : Except String Bool :=
  if overwrite then pure true
  else do
    let u0 ← Py.get item "url"
    pure (¬Py.truthy u0)

/-- Lines 312-328: build the field updates, ensure the username tag, and
update the item. -/
def stage6 (w : World) (ty : Py.Val) (item_id : String) (overwrite : Bool)
    (item : Py.Val) (cand : Py.Val × Py.Val × Py.Val) (src : Py.Val)
    (sc : String) (meta : MetaRec) : Run :=
  tryR (condTitle overwrite item) fun tcond =>
  let upd1 : List (String × Py.Val) :=
    if tcond then [("title", meta.caption)] else []
  tryR (condDate overwrite item meta) fun dcond =>
  let upd2 := upd1 ++ (if dcond then [("date", meta.date)] else [])
  tryR (condUrl overwrite item) fun ucond =>
  let upd3 := upd2 ++ (if ucond then [("url", meta.permalink)] else [])
  tryR (tagIds item) fun tag_ids =>
  if Py.truthy meta.username then
    tryR (ensure_tag w meta.username) fun utc =>
      let tag_ids2 := if tag_ids.any (fun t => Py.eqVal t utc.1) then tag_ids
        else tag_ids ++ [utc.1]
      finish w ty item_id cand src sc meta
        (upd3 ++ [("tag_ids", Py.Val.list tag_ids2)])
        (if utc.2 then some meta.username else Option.none)
  else
    finish w ty item_id cand src sc meta upd3 Option.none

/-- Lines 297-310: shortcode extraction, fetch, parse. -/
def stage5 (w : World) (ty : Py.Val) (item_id : String) (overwrite : Bool)
    (item : Py.Val) (cand : Py.Val × Py.Val × Py.Val) (src : Py.Val) : Run :=
  tryR (extractPy src) fun sc? =>
  match sc? with
  | Option.none =>
    { result := .ok ("Could not extract shortcode from URL: " ++ Py.toStr src, true),
      site := some 5, urlCand := some cand, srcUrl := some src }
  | some sc =>
    tryR (fetchMeta w) fun ij =>
    match ij with
    | Option.none =>
      { result := .ok ("Failed to fetch Instagram metadata (check ig_sessionid or URL).", true),
        site := some 6, urlCand := some cand, srcUrl := some src,
        fetched := some sc }
    | some payload =>
      if ¬Py.truthy payload then
        { result := .ok ("Failed to fetch Instagram metadata (check ig_sessionid or URL).", true),
          site := some 6, urlCand := some cand, srcUrl := some src,
          fetched := some sc }
      else
        tryR (parsePayload payload src) fun meta? =>
        match meta? with
        | Option.none =>
          { result := .ok ("Instagram response did not contain expected fields.", true),
            site := some 7, urlCand := some cand, srcUrl := some src,
            fetched := some sc }
        | some meta => stage6 w ty item_id overwrite item cand src sc meta

/-- Lines 278-295: URL candidates and source URL resolution. -/
def stage4 (w : World) (ty : Py.Val) (item_id : String) (overwrite : Bool)
    (user_url item : Py.Val) : Run :=
  tryR (Py.get item "url") fun cu0 =>
  let current_url := if Py.truthy cu0 then cu0 else Py.Val.str ""
  tryR (filePaths ty item) fun fps =>
  tryR (loadSidecar w.fs fps) fun sd =>
  tryR (match sd with
        | some d => if Py.truthy d then sidecarToUrl d else pure Option.none
        | Option.none => pure Option.none) fun su? =>
  let sidecar_url := match su? with
    | some v => v
    | Option.none => Py.Val.none
  let source_url := if Py.truthy user_url then user_url
    else if Py.truthy current_url then current_url
    else sidecar_url
  if ¬Py.truthy source_url then
    { result := .ok ("No Instagram URL found (provide args.url or ensure item.url/sidecar contains it).", true),
      site := some 4, urlCand := some (user_url, current_url, sidecar_url) }
  else
    stage5 w ty item_id overwrite item (user_url, current_url, sidecar_url)
      source_url

/-- Lines 269-276: args processing and the item lookup (the _graphql call
of _get_item is not guarded by any try). -/
def stage3 (w : World) (ty : Py.Val) (item_id : String) (args : Py.Val) : Run :=
  tryR (Py.get args "overwrite") fun ov =>
  let overwrite := Py.truthy ov
  tryR (Py.get args "url") fun u0 =>
  let user_url := if Py.truthy u0 then u0 else Py.Val.str ""
  tryR (Py.get args "ig_sessionid") fun _ =>
  tryR (get_item w ty) fun item =>
  if ¬Py.truthy item then
    { result := .ok (Py.toStr ty ++ " " ++ item_id ++ " not found", true),
      site := some 3 }
  else
    stage4 w ty item_id overwrite user_url item

/-- Lines 258-267: block extraction and target detection (the try/except
around _detect_target responds with str(exc)). -/
def stage2 (w : World) (payload : Py.Val) : Run :=
  tryR (Py.getD payload "input" (.dict [])) fun ib0 =>
  let input_block := if Py.truthy ib0 then ib0 else Py.Val.dict []
  tryR (Py.getD input_block "args" (.dict [])) fun a0 =>
  let args := if Py.truthy a0 then a0 else Py.Val.dict []
  tryR (Py.getD input_block "hookContext" (.dict [])) fun h0 =>
  let hook_ctx := if Py.truthy h0 then h0 else Py.Val.dict []
  tryR (Py.get payload "server_connection") fun s1 =>
  tryR (if Py.truthy s1 then pure s1 else Py.get payload "serverConnection") fun _ =>
  match detect_target hook_ctx args with
  | .error e => { result := .ok (e, true), site := some 2 }
  | .ok tyid => stage3 w tyid.1 tyid.2 args

/-- src/instagram_meta.py, main (lines 250-338). -/
def main (w : World) : Run :=
  match w.stdin_parse with
  | .error e =>
    { result := .ok ("Failed to parse input JSON: " ++ e, true), site := some 1 }
  | .ok payload => stage2 w payload

end IGMeta

/-! ## Theorems -/

namespace Shortcode

theorem lit_eq_some : ∀ {L s t : List Char}, lit L s = some t → s = L ++ t := by
  intro L
  induction L with
  | nil => intro s t h; simpa [lit] using h
  | cons l ls ih =>
    intro s t h
    cases s with
    | nil => simp [lit] at h
    | cons c cs =>
      by_cases hc : c = l
      · subst hc
        simp [lit] at h
        have := ih h
        simp [this]
      · simp [lit, hc] at h

theorem markerMatch_cons_none {c : Char} {r : List Char} (hc : c ≠ '/') :
    markerMatch (c :: r) = Option.none := by
  simp [markerMatch, lit, hc]

theorem searchWith_cons_none {alt : List Char → Option (List Char)} {c : Char}
    {rest : List Char} (h : alt (c :: rest) = Option.none) :
    searchWith alt (c :: rest) = searchWith alt rest := by
  simp [searchWith, h]

theorem searchWith_cons_some {alt : List Char → Option (List Char)} {c : Char}
    {rest r cap : List Char} (h : alt (c :: rest) = some r)
    (hc : capture5 r = some cap) :
    searchWith alt (c :: rest) = some cap := by
  simp [searchWith, h, hc]

theorem searchWith_cons_nocap {alt : List Char → Option (List Char)} {c : Char}
    {rest r : List Char} (h : alt (c :: rest) = some r)
    (hc : capture5 r = Option.none) :
    searchWith alt (c :: rest) = searchWith alt rest := by
  simp [searchWith, h, hc]

theorem searchWith_marker_window1 (x : Char) (t : List Char) :
    searchWith markerMatch
      ('n' :: 's' :: 't' :: 'a' :: 'g' :: 'r' :: 'a' :: 'm' :: '\\' ::x:: 'c' :: 'o' :: 'm' ::t)
      = searchWith markerMatch t := by
  rw [searchWith_cons_none (markerMatch_cons_none (by decide)),
      searchWith_cons_none (markerMatch_cons_none (by decide)),
      searchWith_cons_none (markerMatch_cons_none (by decide)),
      searchWith_cons_none (markerMatch_cons_none (by decide)),
      searchWith_cons_none (markerMatch_cons_none (by decide)),
      searchWith_cons_none (markerMatch_cons_none (by decide)),
      searchWith_cons_none (markerMatch_cons_none (by decide)),
      searchWith_cons_none (markerMatch_cons_none (by decide)),
      searchWith_cons_none (markerMatch_cons_none (by decide)),
      searchWith_cons_none (by by_cases hx : x = '/' <;> simp [markerMatch, lit, hx]),
      searchWith_cons_none (markerMatch_cons_none (by decide)),
      searchWith_cons_none (markerMatch_cons_none (by decide)),
      searchWith_cons_none (markerMatch_cons_none (by decide))]

theorem searchWith_marker_window2 (t : List Char) :
    searchWith markerMatch
      ('n' :: 's' :: 't' :: 'a' :: 'g' :: 'r' :: 'a' :: 'm' :: '.' :: 'c' :: 'o' :: 'm' ::t)
      = searchWith markerMatch t := by
  rw [searchWith_cons_none (markerMatch_cons_none (by decide)),
      searchWith_cons_none (markerMatch_cons_none (by decide)),
      searchWith_cons_none (markerMatch_cons_none (by decide)),
      searchWith_cons_none (markerMatch_cons_none (by decide)),
      searchWith_cons_none (markerMatch_cons_none (by decide)),
      searchWith_cons_none (markerMatch_cons_none (by decide)),
      searchWith_cons_none (markerMatch_cons_none (by decide)),
      searchWith_cons_none (markerMatch_cons_none (by decide)),
      searchWith_cons_none (markerMatch_cons_none (by decide)),
      searchWith_cons_none (markerMatch_cons_none (by decide)),
      searchWith_cons_none (markerMatch_cons_none (by decide)),
      searchWith_cons_none (markerMatch_cons_none (by decide))]

theorem igCodeStrip_shape {s t : List Char} (h : igCodeStrip s = some t) :
    ∃ x, x ≠ '\n' ∧
      s = 'i' :: 'n' :: 's' :: 't' :: 'a' :: 'g' :: 'r' :: 'a' :: 'm' :: '\\' ::x:: 'c' :: 'o' :: 'm' ::t := by
  unfold igCodeStrip at h
  rcases h10 : lit ['i','n','s','t','a','g','r','a','m','\\'] s with _ | t2
  · rw [h10] at h; simp at h
  · rw [h10] at h
    cases t2 with
    | nil => simp at h
    | cons x t3 =>
      by_cases hx : x = '\n'
      · simp [hx] at h
      · simp only [hx, if_false, ite_false] at h
        have h2 := lit_eq_some h10
        have h3 := lit_eq_some h
        refine ⟨x, hx, ?_⟩
        simp [h2, h3]

/-- The search with the full compiled alternation agrees with the search
with only the three bare markers: the instagram alternative can only
succeed where a bare marker also begins six characters before its capture,
and no other marker occurrence lies inside the literal window. -/
theorem code_eq_std : ∀ s, searchWith codeAlt s = searchWith markerMatch s := by
  intro s
  induction s with
  | nil => rfl
  | cons c rest ih =>
    rcases hstrip : igCodeStrip (c :: rest) with _ | t
    · have hca : codeAlt (c :: rest) = markerMatch (c :: rest) := by
        unfold codeAlt; rw [hstrip]
      rcases hm : markerMatch (c :: rest) with _ | r
      · rw [searchWith_cons_none (hca.trans hm), searchWith_cons_none hm]; exact ih
      · rcases hcap : capture5 r with _ | cap
        · rw [searchWith_cons_nocap (hca.trans hm) hcap,
              searchWith_cons_nocap hm hcap]; exact ih
        · rw [searchWith_cons_some (hca.trans hm) hcap,
              searchWith_cons_some hm hcap]
    · obtain ⟨x, hx, hs⟩ := igCodeStrip_shape hstrip
      have hc : c = 'i' := by
        have := congrArg (fun l => l.headD ' ') hs
        simpa using this
      subst hc
      have hrest : rest = 'n' :: 's' :: 't' :: 'a' :: 'g' :: 'r' :: 'a' :: 'm' :: '\\' ::x:: 'c' :: 'o' :: 'm' ::t := by
        have := congrArg List.tail hs
        simpa using this
      subst hrest
      have hmi : markerMatch
          ('i' :: 'n' :: 's' :: 't' :: 'a' :: 'g' :: 'r' :: 'a' :: 'm' :: '\\' ::x:: 'c' :: 'o' :: 'm' ::t)
          = Option.none := markerMatch_cons_none (by decide)
      rcases hmt : markerMatch t with _ | r
      · have hca : codeAlt
            ('i' :: 'n' :: 's' :: 't' :: 'a' :: 'g' :: 'r' :: 'a' :: 'm' :: '\\' ::x:: 'c' :: 'o' :: 'm' ::t)
            = Option.none := by
          simp [codeAlt, hstrip, hmt, hmi]
        rw [searchWith_cons_none hca, searchWith_cons_none hmi]
        exact ih
      · have hca : codeAlt
            ('i' :: 'n' :: 's' :: 't' :: 'a' :: 'g' :: 'r' :: 'a' :: 'm' :: '\\' ::x:: 'c' :: 'o' :: 'm' ::t)
            = some r := by
          simp [codeAlt, hstrip, hmt]
        rcases hcap : capture5 r with _ | cap
        · rw [searchWith_cons_nocap hca hcap, searchWith_cons_none hmi]
          exact ih
        · obtain ⟨c2, r2, ht⟩ : ∃ c2 r2, t = c2 :: r2 := by
            cases t with
            | nil => simp [markerMatch, lit] at hmt
            | cons c2 r2 => exact ⟨c2, r2, rfl⟩
          subst ht
          rw [searchWith_cons_some hca hcap, searchWith_cons_none hmi,
              searchWith_marker_window1, searchWith_cons_some hmt hcap]

/-- The search with the specification alternation also agrees with the
bare-marker search: "instagram.com/p/..." contains "/p/" with the same
capture. -/
theorem spec_eq_std : ∀ s, searchWith specAlt s = searchWith markerMatch s := by
  intro s
  induction s with
  | nil => rfl
  | cons c rest ih =>
    rcases hm : markerMatch (c :: rest) with _ | r
    · rcases hstrip : specIgStrip (c :: rest) with _ | t
      · have hsa : specAlt (c :: rest) = Option.none := by
          simp [specAlt, hm, hstrip]
        rw [searchWith_cons_none hsa, searchWith_cons_none hm]
        exact ih
      · have hshape := lit_eq_some hstrip
        simp only [List.cons_append, List.nil_append, List.cons.injEq] at hshape
        obtain ⟨hc, hrest⟩ := hshape
        subst hc
        subst hrest
        rcases hmt : markerMatch t with _ | r
        · have hsa : specAlt
              ('i' :: 'n' :: 's' :: 't' :: 'a' :: 'g' :: 'r' :: 'a' :: 'm' :: '.' :: 'c' :: 'o' :: 'm' ::t)
              = Option.none := by
            simp [specAlt, hm, hstrip, hmt]
          rw [searchWith_cons_none hsa, searchWith_cons_none hm]
          exact ih
        · have hsa : specAlt
              ('i' :: 'n' :: 's' :: 't' :: 'a' :: 'g' :: 'r' :: 'a' :: 'm' :: '.' :: 'c' :: 'o' :: 'm' ::t)
              = some r := by
            simp [specAlt, hm, hstrip, hmt]
          rcases hcap : capture5 r with _ | cap
          · rw [searchWith_cons_nocap hsa hcap, searchWith_cons_none hm]
            exact ih
          · obtain ⟨c2, r2, ht⟩ : ∃ c2 r2, t = c2 :: r2 := by
              cases t with
              | nil => simp [markerMatch, lit] at hmt
              | cons c2 r2 => exact ⟨c2, r2, rfl⟩
            subst ht
            rw [searchWith_cons_some hsa hcap, searchWith_cons_none hm,
                searchWith_marker_window2, searchWith_cons_some hmt hcap]
    · have hsa : specAlt (c :: rest) = some r := by
        simp [specAlt, hm]
      rcases hcap : capture5 r with _ | cap
      · rw [searchWith_cons_nocap hsa hcap, searchWith_cons_nocap hm hcap]
        exact ih
      · rw [searchWith_cons_some hsa hcap, searchWith_cons_some hm hcap]

end Shortcode

/-- Claim C3: for every URL string, _extract_shortcode returns the first
maximal run of at least 5 characters from [A-Za-z0-9_-] that immediately
follows one of the path markers "/p/", "/reel/" or "/tv/" (or the pattern
"instagram.com/" followed by p, reel or tv and a slash), returns None for
the empty string and when no such segment occurs, and both entry points
use the same extraction. -/
theorem claim_C3_shortcode_extraction (url : String) :
    IGMeta.extract_shortcode url = Shortcode.specExtract url ∧
    IGScraper.extract_shortcode url = IGMeta.extract_shortcode url ∧
    IGMeta.extract_shortcode "" = Option.none := by
  refine ⟨?_, rfl, rfl⟩
  unfold IGMeta.extract_shortcode Shortcode.specExtract
  by_cases h : url = ""
  · subst h; rfl
  · have hb : (url == "") = false := by
      simpa using h
    rw [hb]
    simp only [Bool.false_eq_true, if_false]
    rw [Shortcode.code_eq_std, ← Shortcode.spec_eq_std]

namespace Py

theorem ediv_bounds (a k : Int) (hk : 0 < k) :
    k * (a / k) ≤ a ∧ a < k * (a / k) + k := by
  have h1 := Int.emod_nonneg a (by omega : k ≠ 0)
  have h2 := Int.emod_lt_of_pos a hk
  have h3 := Int.ediv_add_emod a k
  omega

set_option maxHeartbeats 1000000 in
/-- Linear core of the calendar round trip: with every euclidean division
replaced by a variable constrained to its characteristic bounds, the
peeled decomposition reassembles to the original day count and the month
and day stay in range. -/
theorem civil_core
    (z z1 era doe cc0 cc r1 q r2 yr0 yr doy yoe y mp pd d m yy
     y2 era2 yoe2 mp2 pd2 doy2 q4 q100 doe2 res : Int)
    (h1 : z1 = z + 719468)
    (h2 : 146097 * era ≤ z1 ∧ z1 < 146097 * era + 146097)
    (h3 : doe = z1 - era * 146097)
    (h4 : 36524 * cc0 ≤ doe ∧ doe < 36524 * cc0 + 36524)
    (h5 : (3 < cc0 ∧ cc = 3) ∨ (¬3 < cc0 ∧ cc = cc0))
    (h6 : r1 = doe - 36524 * cc)
    (h7 : 1461 * q ≤ r1 ∧ r1 < 1461 * q + 1461)
    (h8 : r2 = r1 - 1461 * q)
    (h9 : 365 * yr0 ≤ r2 ∧ r2 < 365 * yr0 + 365)
    (h10 : (3 < yr0 ∧ yr = 3) ∨ (¬3 < yr0 ∧ yr = yr0))
    (h11 : doy = r2 - 365 * yr)
    (h12 : yoe = 100 * cc + 4 * q + yr)
    (h13 : y = yoe + era * 400)
    (h14 : 153 * mp ≤ 5 * doy + 2 ∧ 5 * doy + 2 < 153 * mp + 153)
    (h15 : 5 * pd ≤ 153 * mp + 2 ∧ 153 * mp + 2 < 5 * pd + 5)
    (h16 : d = doy - pd + 1)
    (h17 : (mp < 10 ∧ m = mp + 3) ∨ (¬mp < 10 ∧ m = mp - 9))
    (h18 : (m ≤ 2 ∧ yy = y + 1) ∨ (¬m ≤ 2 ∧ yy = y))
    (g1 : (m ≤ 2 ∧ y2 = yy - 1) ∨ (¬m ≤ 2 ∧ y2 = yy))
    (g2 : 400 * era2 ≤ y2 ∧ y2 < 400 * era2 + 400)
    (g3 : yoe2 = y2 - era2 * 400)
    (g4 : (2 < m ∧ mp2 = m - 3) ∨ (¬2 < m ∧ mp2 = m + 9))
    (g5 : 5 * pd2 ≤ 153 * mp2 + 2 ∧ 153 * mp2 + 2 < 5 * pd2 + 5)
    (g6 : doy2 = pd2 + d - 1)
    (g7 : 4 * q4 ≤ yoe2 ∧ yoe2 < 4 * q4 + 4)
    (g8 : 100 * q100 ≤ yoe2 ∧ yoe2 < 100 * q100 + 100)
    (g9 : doe2 = yoe2 * 365 + q4 - q100 + doy2)
    (g10 : res = era2 * 146097 + doe2 - 719468) :
    1 ≤ m ∧ m ≤ 12 ∧ 1 ≤ d ∧ d ≤ 31 ∧ res = z := by
  have hdoe : 0 ≤ doe ∧ doe ≤ 146096 := by omega
  have hcc : 0 ≤ cc ∧ cc ≤ 3 := by omega
  have hq : 0 ≤ q ∧ q ≤ 24 := by omega
  have hyr : 0 ≤ yr ∧ yr ≤ 3 := by omega
  have hr2 : 0 ≤ r2 ∧ r2 ≤ 1460 := by omega
  have hdoy : 0 ≤ doy ∧ doy ≤ 365 := by omega
  have hdoeq : doe = 36524 * cc + 1461 * q + 365 * yr + doy := by omega
  have hyoe : 0 ≤ yoe ∧ yoe ≤ 399 := by omega
  have hmp : 0 ≤ mp ∧ mp ≤ 11 := by omega
  have hm : 1 ≤ m ∧ m ≤ 12 := by omega
  have hd : 1 ≤ d ∧ d ≤ 31 := by omega
  have hy2 : y2 = y := by omega
  have heraEq : era2 = era := by omega
  have hyoe2 : yoe2 = yoe := by omega
  have hmp2 : mp2 = mp := by omega
  have hpd2 : pd2 = pd := by omega
  have hdoy2 : doy2 = doy := by omega
  have hq4 : q4 = 25 * cc + q := by omega
  have hq100 : q100 = cc := by omega
  refine ⟨hm.1, hm.2, hd.1, hd.2, ?_⟩
  omega

/-- The embedded calendar conversion is a valid date and `daysFromCivil`
inverts it, for every day count. -/
theorem civil_valid_and_inverse (z : Int) :
    1 ≤ cfdM z ∧ cfdM z ≤ 12 ∧ 1 ≤ cfdD z ∧ cfdD z ≤ 31 ∧
    daysFromCivil (cfdY z) (cfdM z) (cfdD z) = z := by
  have h2 : 146097 * cfdEra z ≤ z + 719468 ∧
      z + 719468 < 146097 * cfdEra z + 146097 := by
    unfold cfdEra; exact ediv_bounds _ _ (by norm_num)
  have h4 : 36524 * cfdCc0 z ≤ cfdDoe z ∧
      cfdDoe z < 36524 * cfdCc0 z + 36524 := by
    unfold cfdCc0; exact ediv_bounds _ _ (by norm_num)
  have h5 : (3 < cfdCc0 z ∧ cfdCc z = 3) ∨ (¬3 < cfdCc0 z ∧ cfdCc z = cfdCc0 z) := by
    unfold cfdCc; split_ifs with h
    · exact Or.inl ⟨h, rfl⟩
    · exact Or.inr ⟨h, rfl⟩
  have h7 : 1461 * cfdQ z ≤ cfdR1 z ∧ cfdR1 z < 1461 * cfdQ z + 1461 := by
    unfold cfdQ; exact ediv_bounds _ _ (by norm_num)
  have h9 : 365 * cfdYr0 z ≤ cfdR2 z ∧ cfdR2 z < 365 * cfdYr0 z + 365 := by
    unfold cfdYr0; exact ediv_bounds _ _ (by norm_num)
  have h10 : (3 < cfdYr0 z ∧ cfdYr z = 3) ∨ (¬3 < cfdYr0 z ∧ cfdYr z = cfdYr0 z) := by
    unfold cfdYr; split_ifs with h
    · exact Or.inl ⟨h, rfl⟩
    · exact Or.inr ⟨h, rfl⟩
  have h14 : 153 * cfdMp z ≤ 5 * cfdDoy z + 2 ∧
      5 * cfdDoy z + 2 < 153 * cfdMp z + 153 := by
    unfold cfdMp; exact ediv_bounds _ _ (by norm_num)
  have h15 : 5 * ((153 * cfdMp z + 2) / 5) ≤ 153 * cfdMp z + 2 ∧
      153 * cfdMp z + 2 < 5 * ((153 * cfdMp z + 2) / 5) + 5 :=
    ediv_bounds _ _ (by norm_num)
  have h17 : (cfdMp z < 10 ∧ cfdM z = cfdMp z + 3) ∨
      (¬cfdMp z < 10 ∧ cfdM z = cfdMp z - 9) := by
    unfold cfdM; split_ifs with h
    · exact Or.inl ⟨h, rfl⟩
    · exact Or.inr ⟨h, by omega⟩
  have h18 : (cfdM z ≤ 2 ∧ cfdY z = cfdYoe z + cfdEra z * 400 + 1) ∨
      (¬cfdM z ≤ 2 ∧ cfdY z = cfdYoe z + cfdEra z * 400) := by
    unfold cfdY; split_ifs with h
    · exact Or.inl ⟨h, rfl⟩
    · exact Or.inr ⟨h, by omega⟩
  have g1 : (cfdM z ≤ 2 ∧ dfcY2 (cfdY z) (cfdM z) = cfdY z - 1) ∨
      (¬cfdM z ≤ 2 ∧ dfcY2 (cfdY z) (cfdM z) = cfdY z) := by
    unfold dfcY2; split_ifs with h
    · exact Or.inl ⟨h, rfl⟩
    · exact Or.inr ⟨h, by omega⟩
  have g2 : 400 * dfcEra (cfdY z) (cfdM z) ≤ dfcY2 (cfdY z) (cfdM z) ∧
      dfcY2 (cfdY z) (cfdM z) < 400 * dfcEra (cfdY z) (cfdM z) + 400 := by
    unfold dfcEra; exact ediv_bounds _ _ (by norm_num)
  have g4 : (2 < cfdM z ∧ dfcMp (cfdM z) = cfdM z - 3) ∨
      (¬2 < cfdM z ∧ dfcMp (cfdM z) = cfdM z + 9) := by
    unfold dfcMp; split_ifs with h
    · exact Or.inl ⟨h, by omega⟩
    · exact Or.inr ⟨h, rfl⟩
  have g5 : 5 * ((153 * dfcMp (cfdM z) + 2) / 5) ≤ 153 * dfcMp (cfdM z) + 2 ∧
      153 * dfcMp (cfdM z) + 2 < 5 * ((153 * dfcMp (cfdM z) + 2) / 5) + 5 :=
    ediv_bounds _ _ (by norm_num)
  have g7 : 4 * (dfcYoe (cfdY z) (cfdM z) / 4) ≤ dfcYoe (cfdY z) (cfdM z) ∧
      dfcYoe (cfdY z) (cfdM z) < 4 * (dfcYoe (cfdY z) (cfdM z) / 4) + 4 :=
    ediv_bounds _ _ (by norm_num)
  have g8 : 100 * (dfcYoe (cfdY z) (cfdM z) / 100) ≤ dfcYoe (cfdY z) (cfdM z) ∧
      dfcYoe (cfdY z) (cfdM z) < 100 * (dfcYoe (cfdY z) (cfdM z) / 100) + 100 :=
    ediv_bounds _ _ (by norm_num)
  exact civil_core z (z + 719468) (cfdEra z) (cfdDoe z) (cfdCc0 z) (cfdCc z)
    (cfdR1 z) (cfdQ z) (cfdR2 z) (cfdYr0 z) (cfdYr z) (cfdDoy z) (cfdYoe z)
    (cfdYoe z + cfdEra z * 400) (cfdMp z) ((153 * cfdMp z + 2) / 5) (cfdD z)
    (cfdM z) (cfdY z) (dfcY2 (cfdY z) (cfdM z)) (dfcEra (cfdY z) (cfdM z))
    (dfcYoe (cfdY z) (cfdM z)) (dfcMp (cfdM z)) ((153 * dfcMp (cfdM z) + 2) / 5)
    (dfcDoy (cfdM z) (cfdD z)) (dfcYoe (cfdY z) (cfdM z) / 4)
    (dfcYoe (cfdY z) (cfdM z) / 100) (dfcDoe (cfdY z) (cfdM z) (cfdD z))
    (daysFromCivil (cfdY z) (cfdM z) (cfdD z))
    rfl h2 rfl h4 h5 rfl h7 rfl h9 h10 rfl rfl rfl h14 h15 rfl h17 h18
    g1 g2 rfl g4 g5 rfl g7 g8 rfl rfl

end Py

@[simp]
theorem ebind_ok {a : Type} {b : Type} (x : a) (f : a → Except String b) :
    (Except.ok x >>= f) = f x := rfl

@[simp]
theorem ebind_err {a : Type} {b : Type} (e : String) (f : a → Except String b) :
    ((Except.error e : Except String a) >>= f) = Except.error e := rfl

@[simp]
theorem epure {a : Type} (x : a) : (pure x : Except String a) = Except.ok x := rfl

/-- Claim C10: the parsed date is computed only when taken_at_timestamp
(or taken_at) is truthy, so a timestamp of 0 yields no date; when the
chosen timestamp is truthy the result is int(ts) fed through the UTC
calendar conversion formatted as YYYY-MM-DD; identical in both entry
points.  The last conjunct certifies the calendar conversion itself: the
computed month and day are always in range and the standard
days-from-civil inverse recovers the day count. -/
theorem claim_C10_date_from_timestamp :
    (∀ payload fb, IGScraper.parsePayload payload fb = IGMeta.parsePayload payload fb) ∧
    (∀ media t1 ts, Py.get media "taken_at_timestamp" = .ok t1 →
      Py.truthy t1 = false → Py.get media "taken_at" = .ok ts →
      Py.truthy ts = false → IGMeta.dateOf media = .ok Py.Val.none) ∧
    IGMeta.dateOf (Py.Val.dict [("taken_at_timestamp", Py.Val.int 0)])
      = .ok Py.Val.none ∧
    (∀ media t1, Py.get media "taken_at_timestamp" = .ok t1 →
      Py.truthy t1 = true →
      IGMeta.dateOf media
        = Py.toInt t1 >>= fun n => Py.utcDateStr n >>= fun s =>
            Except.ok (Py.Val.str s)) ∧
    (∀ media t1 ts, Py.get media "taken_at_timestamp" = .ok t1 →
      Py.truthy t1 = false → Py.get media "taken_at" = .ok ts →
      Py.truthy ts = true →
      IGMeta.dateOf media
        = Py.toInt ts >>= fun n => Py.utcDateStr n >>= fun s =>
            Except.ok (Py.Val.str s)) ∧
    (∀ n s, Py.utcDateStr n = .ok s →
      s = Py.pad 4 (Py.cfdY (n / 86400)) ++ "-" ++ Py.pad 2 (Py.cfdM (n / 86400))
          ++ "-" ++ Py.pad 2 (Py.cfdD (n / 86400))) ∧
    (∀ z, 1 ≤ Py.cfdM z ∧ Py.cfdM z ≤ 12 ∧ 1 ≤ Py.cfdD z ∧ Py.cfdD z ≤ 31 ∧
      Py.daysFromCivil (Py.cfdY z) (Py.cfdM z) (Py.cfdD z) = z) := by
  refine ⟨fun payload fb => rfl, ?_, by rfl, ?_, ?_, ?_, Py.civil_valid_and_inverse⟩
  · intro media t1 ts h1 ht1 h2 hts
    unfold IGMeta.dateOf
    rw [h1]
    simp only [ebind_ok]
    rw [if_neg (by simp [ht1])]
    rw [h2]
    simp only [ebind_ok]
    rw [if_neg (by simp [hts])]
    rfl
  · intro media t1 h1 ht1
    unfold IGMeta.dateOf
    rw [h1]
    simp [ht1]
  · intro media t1 ts h1 ht1 h2 hts
    unfold IGMeta.dateOf
    rw [h1]
    simp only [ebind_ok]
    rw [if_neg (by simp [ht1])]
    rw [h2]
    simp [hts]
  · intro n str h
    unfold Py.utcDateStr at h
    simp only [Py.civilFromDays] at h
    split_ifs at h with hcond
    all_goals simp at h
    exact h.symm

/-- Inversion of a successful parse: how the returned record is built. -/
theorem parse_ok_some_elim {payload fb : Py.Val} {m : MetaRec}
    (h : IGMeta.parsePayload payload fb = .ok (some m)) :
    ∃ v cap dat un pl, IGMeta.mediaSel payload = .ok v ∧ Py.truthy v = true ∧
      IGMeta.captionOf v = .ok cap ∧ IGMeta.dateOf v = .ok dat ∧
      IGMeta.usernameOf v = .ok un ∧ IGMeta.permalinkOf v fb = .ok pl ∧
      m = ⟨if Py.truthy cap = true then cap else .str "", dat, un,
           if Py.truthy pl = true then pl else fb⟩ := by
  unfold IGMeta.parsePayload at h
  rcases hm : IGMeta.mediaSel payload with e | v
  · rw [hm] at h; simp at h
  · rw [hm] at h
    simp only [ebind_ok] at h
    rcases htr : Py.truthy v with _ | _
    · rw [htr] at h; simp at h
    · rw [htr] at h
      simp only [Bool.not_true, Bool.false_eq_true, if_false] at h
      rcases hcap : IGMeta.captionOf v with e | cap
      · rw [hcap] at h; simp at h
      · rw [hcap] at h
        simp only [ebind_ok] at h
        rcases hdat : IGMeta.dateOf v with e | dat
        · rw [hdat] at h; simp at h
        · rw [hdat] at h
          simp only [ebind_ok] at h
          rcases hun : IGMeta.usernameOf v with e | un
          · rw [hun] at h; simp at h
          · rw [hun] at h
            simp only [ebind_ok] at h
            rcases hpl : IGMeta.permalinkOf v fb with e | pl
            · rw [hpl] at h; simp at h
            · rw [hpl] at h
              simp only [ebind_ok] at h
              rcases hany : (Py.truthy cap || Py.truthy dat || Py.truthy un
                  || Py.truthy pl) with _ | _
              · rw [hany] at h; simp at h
              · rw [hany] at h
                simp only [Bool.not_true, Bool.false_eq_true, if_false, epure,
                  Except.ok.injEq, Option.some.injEq] at h
                exact ⟨v, cap, dat, un, pl, rfl, htr, hcap, hdat, hun, hpl, h.symm⟩

/-- Inversion of a None parse: either no truthy media was selected, or
every extracted field including the permalink was falsy. -/
theorem parse_ok_none_elim {payload fb : Py.Val}
    (h : IGMeta.parsePayload payload fb = .ok Option.none) :
    (∃ v, IGMeta.mediaSel payload = .ok v ∧ Py.truthy v = false) ∨
    (∃ v pl, IGMeta.mediaSel payload = .ok v ∧ Py.truthy v = true ∧
      IGMeta.permalinkOf v fb = .ok pl ∧ Py.truthy pl = false) := by
  unfold IGMeta.parsePayload at h
  rcases hm : IGMeta.mediaSel payload with e | v
  · rw [hm] at h; simp at h
  · rw [hm] at h
    simp only [ebind_ok] at h
    rcases htr : Py.truthy v with _ | _
    · exact Or.inl ⟨v, rfl, htr⟩
    · rw [htr] at h
      simp only [Bool.not_true, Bool.false_eq_true, if_false] at h
      rcases hcap : IGMeta.captionOf v with e | cap
      · rw [hcap] at h; simp at h
      · rw [hcap] at h
        simp only [ebind_ok] at h
        rcases hdat : IGMeta.dateOf v with e | dat
        · rw [hdat] at h; simp at h
        · rw [hdat] at h
          simp only [ebind_ok] at h
          rcases hun : IGMeta.usernameOf v with e | un
          · rw [hun] at h; simp at h
          · rw [hun] at h
            simp only [ebind_ok] at h
            rcases hpl : IGMeta.permalinkOf v fb with e | pl
            · rw [hpl] at h; simp at h
            · rw [hpl] at h
              simp only [ebind_ok] at h
              rcases hany : (Py.truthy cap || Py.truthy dat || Py.truthy un
                  || Py.truthy pl) with _ | _
              · refine Or.inr ⟨v, pl, rfl, htr, hpl, ?_⟩
                simp only [Bool.or_eq_false_iff] at hany
                exact hany.2
              · rw [hany] at h
                simp at h

/-- v.get(k, d) yields the default when the key is absent. -/
theorem getD_none {kvs : List (String × Py.Val)} {k : String} {d : Py.Val}
    (h : Py.findKey kvs k = Option.none) :
    Py.getD (Py.Val.dict kvs) k d = .ok d := by
  simp [Py.getD, h]

/-- v.get(k) yields None when the key is absent. -/
theorem get_none {kvs : List (String × Py.Val)} {k : String}
    (h : Py.findKey kvs k = Option.none) :
    Py.get (Py.Val.dict kvs) k = .ok Py.Val.none := by
  simp [Py.get, Py.getD, h]

/-- A string ending in a slash is truthy (used for the canonical
instagram URL built from a shortcode). -/
theorem truthy_str_slash (s : String) : Py.truthy (.str (s ++ "/")) = true := by
  simp only [Py.truthy, bne_iff_ne, ne_eq]
  intro h
  have := congrArg String.data h
  simp at this

/-- Claim C6 counterexample: a payload whose "items" value is truthy but
not a list makes _parse_instagram_payload raise a TypeError instead of
returning None, although neither recognized shape is present. -/
theorem claim_C6_counterexample :
    IGMeta.parsePayload (Py.Val.dict [("items", Py.Val.bool true)]) (Py.Val.str "u")
      = .error "TypeError: not subscriptable" := by rfl

/-- Claim C6 as amended: the media object is payload["graphql"]
["shortcode_media"] whenever that value is truthy, otherwise
payload["items"][0] whenever "items" is truthy (in particular a non-empty
list); when both probes are absent or falsy the function returns None;
a truthy non-list "items" (or a truthy non-dict "graphql") raises
instead; and a media dict missing every optional field still parses, the
fields falling back to empty caption, no date, no username and the
fallback URL. -/
theorem claim_C6_amended :
    (∀ payload g sm, Py.getD payload "graphql" (Py.Val.dict []) = .ok g →
      Py.get g "shortcode_media" = .ok sm →
      (Py.truthy sm = true → IGMeta.mediaSel payload = .ok sm) ∧
      (Py.truthy sm = false → ∀ it, Py.get payload "items" = .ok it →
        (Py.truthy it = true → IGMeta.mediaSel payload = Py.index0 it) ∧
        (Py.truthy it = false → IGMeta.mediaSel payload = .ok Py.Val.none))) ∧
    (∀ payload fb v, IGMeta.mediaSel payload = .ok v → Py.truthy v = false →
      IGMeta.parsePayload payload fb = .ok Option.none) ∧
    (∀ kvs fb, Py.findKey kvs "edge_media_to_caption" = Option.none →
      Py.findKey kvs "caption" = Option.none →
      Py.findKey kvs "taken_at_timestamp" = Option.none →
      Py.findKey kvs "taken_at" = Option.none →
      Py.findKey kvs "owner" = Option.none →
      Py.findKey kvs "user" = Option.none →
      Py.findKey kvs "shortcode" = Option.none →
      kvs ≠ [] → Py.truthy fb = true →
      IGMeta.parsePayload
          (Py.Val.dict [("items", Py.Val.list [Py.Val.dict kvs])]) fb
        = .ok (some ⟨Py.Val.str "", Py.Val.none, Py.Val.none, fb⟩)) := by
  refine ⟨?_, ?_, ?_⟩
  · intro payload g sm hg hsm
    constructor
    · intro htr
      unfold IGMeta.mediaSel
      rw [hg]
      simp only [ebind_ok]
      rw [hsm]
      simp only [ebind_ok]
      rw [if_pos htr]
      rfl
    · intro hfa it hit
      constructor
      · intro htr
        unfold IGMeta.mediaSel
        rw [hg]
        simp only [ebind_ok]
        rw [hsm]
        simp only [ebind_ok]
        rw [if_neg (by simp [hfa])]
        rw [hit]
        simp only [ebind_ok]
        rw [if_pos htr]
      · intro hfit
        unfold IGMeta.mediaSel
        rw [hg]
        simp only [ebind_ok]
        rw [hsm]
        simp only [ebind_ok]
        rw [if_neg (by simp [hfa])]
        rw [hit]
        simp only [ebind_ok]
        rw [if_neg (by simp [hfit])]
        rfl
  · intro payload fb v hv hfv
    unfold IGMeta.parsePayload
    rw [hv]
    simp only [ebind_ok]
    rw [if_pos (by simp [hfv])]
    rfl
  · intro kvs fb h1 h2 h3 h4 h5 h6 h7 hne hfb
    have hms : IGMeta.mediaSel
        (Py.Val.dict [("items", Py.Val.list [Py.Val.dict kvs])])
        = .ok (Py.Val.dict kvs) := by
      unfold IGMeta.mediaSel
      rw [show Py.getD (Py.Val.dict [("items", Py.Val.list [Py.Val.dict kvs])])
          "graphql" (Py.Val.dict []) = .ok (Py.Val.dict []) from rfl]
      simp only [ebind_ok]
      rw [show Py.get (Py.Val.dict []) "shortcode_media" = .ok Py.Val.none
          from rfl]
      simp only [ebind_ok]
      rw [if_neg (by simp [Py.truthy])]
      rw [show Py.get (Py.Val.dict [("items", Py.Val.list [Py.Val.dict kvs])])
          "items" = .ok (Py.Val.list [Py.Val.dict kvs]) from rfl]
      simp only [ebind_ok]
      rw [if_pos (by simp [Py.truthy])]
      rfl
    have hcap : IGMeta.captionOf (Py.Val.dict kvs) = .ok Py.Val.none := by
      unfold IGMeta.captionOf
      rw [getD_none h1]
      simp only [ebind_ok]
      rw [show Py.get (Py.Val.dict []) "edges" = .ok Py.Val.none from rfl]
      simp only [ebind_ok]
      rw [if_neg (by simp [Py.truthy])]
      rw [get_none h2]
      simp only [ebind_ok]
      rw [if_neg (by simp [Py.isList])]
      simp only [epure, ebind_ok]
      rw [if_neg (by simp [Py.truthy])]
      rw [if_neg (by simp [Py.isDict])]
    have hdat : IGMeta.dateOf (Py.Val.dict kvs) = .ok Py.Val.none := by
      unfold IGMeta.dateOf
      rw [get_none h3]
      simp only [ebind_ok]
      rw [if_neg (by simp [Py.truthy])]
      rw [get_none h4]
      simp only [ebind_ok]
      rw [if_neg (by simp [Py.truthy])]
      rfl
    have hun : IGMeta.usernameOf (Py.Val.dict kvs) = .ok Py.Val.none := by
      unfold IGMeta.usernameOf
      rw [get_none h5]
      simp only [ebind_ok]
      rw [if_neg (by simp [Py.truthy])]
      rw [get_none h6]
      simp only [ebind_ok]
      rw [if_neg (by simp [Py.isDict])]
      rfl
    have hpl : IGMeta.permalinkOf (Py.Val.dict kvs) fb = .ok fb := by
      unfold IGMeta.permalinkOf
      rw [get_none h7]
      simp only [ebind_ok]
      simp [Py.truthy]
    unfold IGMeta.parsePayload
    rw [hms]
    simp only [ebind_ok]
    rw [if_neg (by simp [Py.truthy, hne])]
    rw [hcap]
    simp only [ebind_ok]
    rw [hdat]
    simp only [ebind_ok]
    rw [hun]
    simp only [ebind_ok]
    rw [hpl]
    simp only [ebind_ok]
    rw [if_neg (by simp [show Py.truthy Py.Val.none = false from rfl, hfb])]
    simp [show Py.truthy Py.Val.none = false from rfl, hfb]

/-- Witness for the amended claim C6 at a concrete input. -/
theorem claim_C6_amended_witness :
    IGMeta.parsePayload
        (Py.Val.dict [("items", Py.Val.list [Py.Val.dict [("id", Py.Val.int 1)]])])
        (Py.Val.str "fb")
      = .ok (some ⟨Py.Val.str "", Py.Val.none, Py.Val.none, Py.Val.str "fb"⟩) :=
  claim_C6_amended.2.2 [("id", Py.Val.int 1)] (Py.Val.str "fb")
    rfl rfl rfl rfl rfl rfl rfl (by simp) (by rfl)

/-- With a truthy fallback the permalink computed by _parse is always
truthy: the canonical URL is a non-empty string and the fallback is
truthy by assumption. -/
theorem permalink_truthy {v fb pl : Py.Val}
    (h : IGMeta.permalinkOf v fb = .ok pl) (hfb : Py.truthy fb = true) :
    Py.truthy pl = true := by
  unfold IGMeta.permalinkOf at h
  rcases hsc : Py.get v "shortcode" with e | sc
  · rw [hsc] at h; simp at h
  · rw [hsc] at h
    simp only [ebind_ok, epure, Except.ok.injEq] at h
    subst h
    rcases hsc2 : Py.truthy sc with _ | _
    · simpa [hsc2] using hfb
    · simp [hsc2, truthy_str_slash]

/-- Claim C9 counterexample: with a truthy media object that is not a
dict, _parse_instagram_payload raises an AttributeError rather than
returning a result. -/
theorem claim_C9_counterexample :
    IGMeta.parsePayload (Py.Val.dict [("items", Py.Val.list [Py.Val.int 5])])
        (Py.Val.str "x")
      = .error "AttributeError: get" := by rfl

/-- Claim C9 as amended: when _parse_instagram_payload is called with a
truthy fallback_url and the payload yields a truthy media object, it
never returns None (it either raises or returns a record), any record it
returns has a truthy permalink equal to the canonical URL built from the
media shortcode when that is truthy and to the fallback otherwise; and a
None return with a truthy fallback happens only when the media selection
produced no truthy media, so the error branch of instagram_meta.main that
reports missing fields is reachable only for such payloads. -/
theorem claim_C9_amended :
    (∀ payload fb v, IGMeta.mediaSel payload = .ok v → Py.truthy v = true →
      Py.truthy fb = true →
      ¬ IGMeta.parsePayload payload fb = .ok Option.none) ∧
    (∀ payload fb m, IGMeta.parsePayload payload fb = .ok (some m) →
      Py.truthy fb = true → Py.truthy m.permalink = true) ∧
    (∀ payload fb m v sc, IGMeta.mediaSel payload = .ok v →
      IGMeta.parsePayload payload fb = .ok (some m) →
      Py.get v "shortcode" = .ok sc →
      m.permalink = (if Py.truthy sc = true
        then Py.Val.str ("https://www.instagram.com/p/" ++ Py.toStr sc ++ "/")
        else fb)) ∧
    (∀ payload fb, Py.truthy fb = true →
      IGMeta.parsePayload payload fb = .ok Option.none →
      ∃ v, IGMeta.mediaSel payload = .ok v ∧ Py.truthy v = false) := by
  refine ⟨?_, ?_, ?_, ?_⟩
  · intro payload fb v hv htv hfb h
    rcases parse_ok_none_elim h with ⟨w, hw, hfw⟩ | ⟨w, pl, hw, htw, hplw, hfpl⟩
    · rw [hv] at hw
      cases hw
      rw [htv] at hfw
      exact Bool.noConfusion hfw
    · rw [permalink_truthy hplw hfb] at hfpl
      exact Bool.noConfusion hfpl
  · intro payload fb m h hfb
    obtain ⟨v, cap, dat, un, pl, hv, htv, hcap, hdat, hun, hpl, hm⟩ :=
      parse_ok_some_elim h
    subst hm
    simp only []
    split_ifs with hc
    · exact hc
    · exact hfb
  · intro payload fb m v sc hv h hsc
    obtain ⟨w, cap, dat, un, pl, hw, htw, hcap, hdat, hun, hpl, hm⟩ :=
      parse_ok_some_elim h
    rw [hv] at hw
    cases hw
    subst hm
    unfold IGMeta.permalinkOf at hpl
    rw [hsc] at hpl
    simp only [ebind_ok, epure, Except.ok.injEq] at hpl
    subst hpl
    rcases hsc2 : Py.truthy sc with _ | _
    · simp [hsc2]
    · simp [hsc2, truthy_str_slash]
  · intro payload fb hfb h
    rcases parse_ok_none_elim h with ⟨w, hw, hfw⟩ | ⟨w, pl, hw, htw, hplw, hfpl⟩
    · exact ⟨w, hw, hfw⟩
    · rw [permalink_truthy hplw hfb] at hfpl
      exact absurd hfpl (by simp)

/-- Witness for the amended claim C9 at a concrete input. -/
theorem claim_C9_amended_witness :
    ∃ v, IGMeta.mediaSel (Py.Val.dict []) = .ok v ∧ Py.truthy v = false :=
  claim_C9_amended.2.2.2 (Py.Val.dict []) (Py.Val.str "x") (by rfl) (by rfl)

/-- Witness for claim C10 at a concrete input. -/
theorem claim_C10_witness :
    IGMeta.dateOf (Py.Val.dict [("taken_at_timestamp", Py.Val.int 1700000000)])
      = .ok (Py.Val.str "2023-11-14") := by
  rw [claim_C10_date_from_timestamp.2.2.2.1
    (Py.Val.dict [("taken_at_timestamp", Py.Val.int 1700000000)])
    (Py.Val.int 1700000000) rfl rfl]
  rfl

theorem dropWhile_head_false {p : Char → Bool} :
    ∀ {l : List Char} {a : Char} {rest : List Char},
      l.dropWhile p = a :: rest → p a = false := by
  intro l
  induction l with
  | nil => intro a rest h; simp [List.dropWhile] at h
  | cons b bl ih =>
    intro a rest h
    by_cases hb : p b
    · rw [List.dropWhile_cons_of_pos hb] at h
      exact ih h
    · rw [List.dropWhile_cons_of_neg hb] at h
      cases h
      simpa using hb

theorem suffixSplit_append (cs : List Char) :
    (IGMeta.suffixSplit cs).1 ++ (IGMeta.suffixSplit cs).2 = cs := by
  unfold IGMeta.suffixSplit
  rcases hdrop : cs.reverse.dropWhile (fun c => !(c == '.')) with _ | ⟨r, rest2⟩
  · simp
  · rcases htake : cs.reverse.takeWhile (fun c => !(c == '.')) with _ | ⟨a, as⟩
    · simp
    · by_cases hr2 : rest2.isEmpty
      · simp [hr2]
      · simp only [hr2, Bool.false_eq_true, if_false]
        have hr : r = '.' := by
          have := dropWhile_head_false hdrop
          simpa using this
        have hsplit := List.takeWhile_append_dropWhile
          (p := fun c => !(c == '.')) (l := cs.reverse)
        rw [hdrop, htake, hr] at hsplit
        have h3 := congrArg List.reverse hsplit
        simp only [List.reverse_append, List.reverse_cons,
          List.reverse_reverse] at h3
        rw [← h3]
        simp

theorem candidate_eq {p : String} (hp : p ≠ "") (ext : String) :
    IGMeta.candidate p ext = .ok (p ++ ext) := by
  unfold IGMeta.candidate IGMeta.withSuffix IGMeta.pathSuffix
  rw [if_neg hp]
  congr 1
  have h := suffixSplit_append p.toList
  calc String.mk (IGMeta.suffixSplit p.toList).1
        ++ (String.mk (IGMeta.suffixSplit p.toList).2 ++ ext)
      = String.mk ((IGMeta.suffixSplit p.toList).1
          ++ (IGMeta.suffixSplit p.toList).2) ++ ext := by
        rw [← String.append_assoc]; rfl
    _ = String.mk p.toList ++ ext := by rw [h]
    _ = p ++ ext := rfl

theorem kvs_any_eq_isSome (kvs : List (String × Py.Val)) (k : String) :
    (kvs.any (fun kv => kv.1 == k)) = (Py.findKey kvs k).isSome := by
  induction kvs with
  | nil => rfl
  | cons kv rest ih =>
    rcases hb : (kv.1 == k) with _ | _
    · have h1 : Py.findKey (kv :: rest) k = Py.findKey rest k := by
        unfold Py.findKey
        rw [List.find?_cons_of_neg _ (by simp [hb])]
      simp [List.any_cons, hb, h1, ih]
    · have h1 : Py.findKey (kv :: rest) k = some kv.2 := by
        unfold Py.findKey
        rw [List.find?_cons_of_pos _ (by simp [hb])]
        rfl
      simp [List.any_cons, hb, h1]

theorem loadSidecar_spec (fs : IGMeta.FS) :
    ∀ paths : List String, (∀ p ∈ paths, p ≠ "") →
      IGMeta.loadSidecar fs paths
        = .ok (IGMeta.firstParse fs (IGMeta.sidecarCandidates paths)) := by
  intro paths
  induction paths with
  | nil => intro h; rfl
  | cons p rest ih =>
    intro h
    have hp : p ≠ "" := h p (by simp)
    have hrest : ∀ q ∈ rest, q ≠ "" := fun q hq => h q (by simp [hq])
    unfold IGMeta.loadSidecar IGMeta.probeOne
    rw [candidate_eq hp, candidate_eq hp]
    have hcands : IGMeta.sidecarCandidates (p :: rest)
        = (p ++ ".info.json") :: (p ++ ".json") :: IGMeta.sidecarCandidates rest := by
      unfold IGMeta.sidecarCandidates
      simp
    rw [hcands]
    rcases hf1 : fs (p ++ ".info.json") with _ | r1
    · rcases hf2 : fs (p ++ ".json") with _ | r2
      · simp only [hf1, hf2, epure, ebind_ok, IGMeta.firstParse]
        exact ih hrest
      · rcases r2 with e | v
        · simp only [hf1, hf2, epure, ebind_ok, IGMeta.firstParse]
          exact ih hrest
        · simp only [hf1, hf2, epure, ebind_ok, IGMeta.firstParse]
    · rcases r1 with e | v
      · rcases hf2 : fs (p ++ ".json") with _ | r2
        · simp only [hf1, hf2, epure, ebind_ok, IGMeta.firstParse]
          exact ih hrest
        · rcases r2 with e2 | v2
          · simp only [hf1, hf2, epure, ebind_ok, IGMeta.firstParse]
            exact ih hrest
          · simp only [hf1, hf2, epure, ebind_ok, IGMeta.firstParse]
      · simp only [hf1, epure, ebind_ok, IGMeta.firstParse]

set_option maxHeartbeats 1600000 in
theorem sidecarToUrl_spec (kvs : List (String × Py.Val)) :
    IGMeta.sidecarToUrl (Py.Val.dict kvs) = .ok (IGMeta.specSidecarUrl kvs) := by
  unfold IGMeta.sidecarToUrl IGMeta.specSidecarUrl IGMeta.keyHit
  rcases hk1 : Py.findKey kvs "webpage_url" with _ | v1 <;>
    rcases hk2 : Py.findKey kvs "permalink" with _ | v2 <;>
      rcases hk3 : Py.findKey kvs "url" with _ | v3 <;>
        rcases hk4 : Py.findKey kvs "shortcode" with _ | v4 <;>
          rcases hk5 : Py.findKey kvs "shortcode_id" with _ | v5 <;>
            simp only [Py.pyIn, Py.sub, Py.get, Py.getD, kvs_any_eq_isSome,
              hk1, hk2, hk3, hk4, hk5, Option.isSome_some, Option.isSome_none,
              Option.getD_some, Option.getD_none, epure, ebind_ok,
              Bool.true_and, Bool.false_and, Bool.false_eq_true, if_false] <;>
            split_ifs <;>
            simp_all

/-- Claim C7: the sidecar candidates probed are exactly each media file
name with ".info.json" appended and with ".json" appended, in that order,
iterating over paths in order (p.with_suffix(p.suffix + ext) appends ext
to the full name); the first candidate that exists and parses as JSON is
used and a candidate that fails to parse is skipped; and the sidecar URL
is the first truthy of the webpage_url, permalink, url keys, else the
canonical URL built from shortcode or shortcode_id, else None. -/
theorem claim_C7_sidecar :
    (∀ (fs : IGMeta.FS) (paths : List String), (∀ p ∈ paths, p ≠ "") →
      IGMeta.loadSidecar fs paths
        = .ok (IGMeta.firstParse fs (IGMeta.sidecarCandidates paths))) ∧
    (∀ (p ext : String), p ≠ "" → IGMeta.candidate p ext = .ok (p ++ ext)) ∧
    (∀ kvs, IGMeta.sidecarToUrl (Py.Val.dict kvs)
        = .ok (IGMeta.specSidecarUrl kvs)) :=
  ⟨loadSidecar_spec, fun _ ext hp => candidate_eq hp ext, sidecarToUrl_spec⟩

/-- Witness for claim C7 at a concrete input. -/
theorem claim_C7_sidecar_witness :
    IGMeta.loadSidecar (fun _ => Option.none) ["a.mp4"]
      = .ok (IGMeta.firstParse (fun _ => Option.none)
          (IGMeta.sidecarCandidates ["a.mp4"])) :=
  claim_C7_sidecar.1 (fun _ => Option.none) ["a.mp4"] (by simp)

/-- Claim C1 (counterexample).  The spec says every failure during a run is
caught locally and surfaced as a JSON payload, in particular failures
raised inside the GraphQL calls.  In this run the findScene GraphQL call
raises, and instagram_meta.main propagates the exception uncaught instead
of responding. -/
theorem claim_C1_counterexample :
    (IGMeta.main
      { stdin_parse := .ok (.dict [("input", .dict
          [("hookContext", .dict [("sceneId", .int 1)])])])
        env_sessionid := Option.none
        findItem := .error "RuntimeError: boom"
        fs := fun _ => Option.none
        igReq := .ok (200, .ok .none)
        allTags := fun _ => .ok .none
        tagCreate := fun _ => .ok .none
        updateRes := .ok .none }).result = Except.error "RuntimeError: boom" := rfl

/-- Claim C1 (amended).  Failures of stdin JSON parsing and of target
detection are caught by instagram_meta.main and surfaced as an
output/error response; the scraper catches a raising Instagram request
(fetch yields None) and a failing json.loads of stdin (the raw string
fallback is used); but an exception raised by the _get_item GraphQL call
propagates out of instagram_meta.main uncaught, for every exception
message. -/
theorem claim_C1_amended :
    (∀ (w : IGMeta.World) (e : String), w.stdin_parse = .error e →
      IGMeta.main w =
        { result := .ok ("Failed to parse input JSON: " ++ e, true), site := some 1 })
    ∧ (∀ (w : IGMeta.World) (hctx args : Py.Val) (e : String),
        w.stdin_parse = .ok (.dict [("input", .dict
          [("args", args), ("hookContext", hctx)])]) →
        Py.truthy args = true → Py.truthy hctx = true →
        IGMeta.detect_target hctx args = .error e →
        IGMeta.main w = { result := .ok (e, true), site := some 2 })
    ∧ (∀ e : String,
        (IGMeta.main
          { stdin_parse := .ok (.dict [("input", .dict
              [("hookContext", .dict [("sceneId", .int 1)])])])
            env_sessionid := Option.none
            findItem := .error e
            fs := fun _ => Option.none
            igReq := .ok (200, .ok .none)
            allTags := fun _ => .ok .none
            tagCreate := fun _ => .ok .none
            updateRes := .ok .none }).result = Except.error e)
    ∧ (∀ (w : IGScraper.SWorld) (e : String), w.igReq = .error e →
        IGScraper.fetch w = Option.none)
    ∧ (∀ (w : IGScraper.SWorld) (e : String), w.jsonLoads = .error e →
        ∃ s, IGScraper.read_url w = .str s) := by
  refine ⟨?_, ?_, ?_, ?_, ?_⟩
  · intro w e h
    simp only [IGMeta.main, h]
  · intro w hctx args e h ha hh hd
    simp only [IGMeta.main, h]
    simp [IGMeta.stage2, IGMeta.tryR, Py.getD, Py.get, Py.findKey, List.find?, ha, hh, hd,
      show Py.truthy (Py.Val.dict [("args", args), ("hookContext", hctx)]) = true from rfl,
      show Py.truthy Py.Val.none = false from rfl]
  · intro e
    rfl
  · intro w e h
    simp only [IGScraper.fetch, h]
  · intro w e h
    simp only [IGScraper.read_url, h]
    by_cases hr : Py.stripWs w.stdin = ""
    · exact ⟨"", by simp [hr]⟩
    · exact ⟨Py.stripChar '"' (Py.stripWs (Py.stripWs w.stdin)), by simp [hr]⟩

/-- Claim C1 (amended, witness): the parse-failure and detect-failure
branches at concrete inputs. -/
theorem claim_C1_amended_witness :
    IGMeta.main
      { stdin_parse := .error "bad"
        env_sessionid := Option.none
        findItem := .ok .none
        fs := fun _ => Option.none
        igReq := .ok (200, .ok .none)
        allTags := fun _ => .ok .none
        tagCreate := fun _ => .ok .none
        updateRes := .ok .none } =
      { result := .ok ("Failed to parse input JSON: " ++ "bad", true), site := some 1 }
    ∧ IGMeta.main
      { stdin_parse := .ok (.dict [("input", .dict
          [("args", .dict [("x", .int 1)]), ("hookContext", .dict [("y", .int 2)])])])
        env_sessionid := Option.none
        findItem := .ok .none
        fs := fun _ => Option.none
        igReq := .ok (200, .ok .none)
        allTags := fun _ => .ok .none
        tagCreate := fun _ => .ok .none
        updateRes := .ok .none } =
      { result := .ok ("Unable to determine target Scene/Image id from hookContext or args.", true),
        site := some 2 } :=
  ⟨claim_C1_amended.1 _ "bad" rfl,
   claim_C1_amended.2.1 _ (.dict [("y", .int 2)]) (.dict [("x", .int 1)])
     "Unable to determine target Scene/Image id from hookContext or args."
     rfl rfl rfl rfl⟩

/-- Claim C2.  In instagram_meta.main the source URL is resolved with the
exact precedence args.url (blanked when falsy), then the item's catalog
url (blanked when falsy), then the sidecar-derived URL; when all three
are falsy the run responds with the "No Instagram URL found" error and
stops — the resulting run record has no fetched shortcode and no sent
update.  The first conjunct links the argument-processing stage to the
resolution stage: user_url is args.url when truthy, else the empty
string. -/
theorem claim_C2_source_url_precedence :
    (∀ (w : IGMeta.World) (ty : Py.Val) (iid : String) (args : Py.Val)
       (ov0 u0 ig0 item : Py.Val),
      Py.get args "overwrite" = .ok ov0 →
      Py.get args "url" = .ok u0 →
      Py.get args "ig_sessionid" = .ok ig0 →
      IGMeta.get_item w ty = .ok item →
      Py.truthy item = true →
      IGMeta.stage3 w ty iid args =
        IGMeta.stage4 w ty iid (Py.truthy ov0)
          (if Py.truthy u0 then u0 else .str "") item)
    ∧ (∀ (w : IGMeta.World) (ty : Py.Val) (iid : String) (ov : Bool)
         (uu item cu0 cu su : Py.Val) (fps : List String)
         (sd su? : Option Py.Val),
        Py.get item "url" = .ok cu0 →
        IGMeta.filePaths ty item = .ok fps →
        IGMeta.loadSidecar w.fs fps = .ok sd →
        (match sd with
          | some d => if Py.truthy d then IGMeta.sidecarToUrl d else pure Option.none
          | Option.none => pure Option.none) = Except.ok su? →
        (if Py.truthy cu0 then cu0 else Py.Val.str "") = cu →
        su?.getD Py.Val.none = su →
        ((Py.truthy uu = true →
            IGMeta.stage4 w ty iid ov uu item =
              IGMeta.stage5 w ty iid ov item (uu, cu, su) uu)
         ∧ (Py.truthy uu = false → Py.truthy cu = true →
            IGMeta.stage4 w ty iid ov uu item =
              IGMeta.stage5 w ty iid ov item (uu, cu, su) cu)
         ∧ (Py.truthy uu = false → Py.truthy cu = false → Py.truthy su = true →
            IGMeta.stage4 w ty iid ov uu item =
              IGMeta.stage5 w ty iid ov item (uu, cu, su) su)
         ∧ (Py.truthy uu = false → Py.truthy cu = false → Py.truthy su = false →
            IGMeta.stage4 w ty iid ov uu item =
              { result := .ok ("No Instagram URL found (provide args.url or ensure item.url/sidecar contains it).", true),
                site := some 4, urlCand := some (uu, cu, su) }))) := by
  constructor
  · intro w ty iid args ov0 u0 ig0 item ho hu hig hgi hitem
    simp [IGMeta.stage3, IGMeta.tryR, ho, hu, hig, hgi, hitem]
  · intro w ty iid ov uu item cu0 cu su fps sd su? h1 h2 h3 h4 hcu hsu
    subst hcu hsu
    simp only [IGMeta.stage4, IGMeta.tryR, h1, h2, h3, h4]
    refine ⟨?_, ?_, ?_, ?_⟩
    · intro huu
      rcases su? with _ | v <;> simp [huu]
    · intro huu hcu2
      rcases su? with _ | v <;> simp [huu, hcu2]
    · intro huu hcu2 hsu2
      rcases su? with _ | v <;> simp_all [Option.getD]
    · intro huu hcu2 hsu2
      rcases su? with _ | v <;> simp_all [Option.getD]

/-- Claim C2 (witness): a run whose three URL candidates are all blank
stops with the no-URL error response and records no fetch and no
update. -/
theorem claim_C2_witness :
    IGMeta.stage4
      { stdin_parse := .ok .none, env_sessionid := Option.none,
        findItem := .ok .none, fs := fun _ => Option.none,
        igReq := .ok (200, .ok .none), allTags := fun _ => .ok .none,
        tagCreate := fun _ => .ok .none, updateRes := .ok .none }
      (.str "Scene") "5" false (.str "")
      (.dict [("url", .str ""), ("files", .list [])]) =
      { result := .ok ("No Instagram URL found (provide args.url or ensure item.url/sidecar contains it).", true),
        site := some 4,
        urlCand := some (.str "", .str "", Py.Val.none) } :=
  (claim_C2_source_url_precedence.2
    { stdin_parse := .ok .none, env_sessionid := Option.none,
      findItem := .ok .none, fs := fun _ => Option.none,
      igReq := .ok (200, .ok .none), allTags := fun _ => .ok .none,
      tagCreate := fun _ => .ok .none, updateRes := .ok .none }
    (.str "Scene") "5" false (.str "")
    (.dict [("url", .str ""), ("files", .list [])])
    (.str "") (.str "") Py.Val.none [] Option.none Option.none
    rfl rfl rfl rfl rfl rfl).2.2.2 rfl rfl rfl

/-- Claim C4.  The meta entry point prints an object with key output,
plus an error key carrying the same message exactly when it reports an
error; the scraper fragment only ever carries the keys Title, Date, URL,
Tags; each of the four is present iff the corresponding parsed field is
truthy, with Tags exactly [\x7b"Name": username\x7d]; and every fragment a
successful scraper run prints is the fragment built from some parsed
record. -/
theorem claim_C4_output_shapes :
    (∀ m : String, IGMeta.respondObj m true =
      [("output", Py.Val.str m), ("error", Py.Val.str m)])
    ∧ (∀ m : String, IGMeta.respondObj m false = [("output", Py.Val.str m)])
    ∧ (∀ (mrec : MetaRec) (k : String) (v : Py.Val),
        (k, v) ∈ IGScraper.buildFragment mrec →
        k = "Title" ∨ k = "Date" ∨ k = "URL" ∨ k = "Tags")
    ∧ (∀ mrec : MetaRec, Py.findKey (IGScraper.buildFragment mrec) "Title" =
        if Py.truthy mrec.caption then some mrec.caption else Option.none)
    ∧ (∀ mrec : MetaRec, Py.findKey (IGScraper.buildFragment mrec) "Date" =
        if Py.truthy mrec.date then some mrec.date else Option.none)
    ∧ (∀ mrec : MetaRec, Py.findKey (IGScraper.buildFragment mrec) "URL" =
        if Py.truthy mrec.permalink then some mrec.permalink else Option.none)
    ∧ (∀ mrec : MetaRec, Py.findKey (IGScraper.buildFragment mrec) "Tags" =
        if Py.truthy mrec.username
        then some (Py.Val.list [Py.Val.dict [("Name", mrec.username)]])
        else Option.none)
    ∧ (∀ (w : IGScraper.SWorld) (kvs : List (String × Py.Val)),
        IGScraper.smain w = .ok (.frag kvs) →
        ∃ m : MetaRec, kvs = IGScraper.buildFragment m) := by
  refine ⟨fun m => by simp [IGMeta.respondObj], fun m => by simp [IGMeta.respondObj],
    ?_, ?_, ?_, ?_, ?_, ?_⟩
  · intro mrec k v hm
    simp only [IGScraper.buildFragment] at hm
    split_ifs at hm <;> simp_all <;> tauto
  · intro mrec
    simp only [IGScraper.buildFragment]
    split_ifs <;> simp_all [Py.findKey, List.find?]
  · intro mrec
    simp only [IGScraper.buildFragment]
    split_ifs <;> simp_all [Py.findKey, List.find?]
  · intro mrec
    simp only [IGScraper.buildFragment]
    split_ifs <;> simp_all [Py.findKey, List.find?]
  · intro mrec
    simp only [IGScraper.buildFragment]
    split_ifs <;> simp_all [Py.findKey, List.find?]
  · intro w kvs h
    simp only [IGScraper.smain] at h
    split at h
    · simp at h
    · rcases hx : IGScraper.extractPy (IGScraper.read_url w) with e | sc?
      · rw [hx] at h; simp at h
      · rw [hx] at h
        simp only [ebind_ok] at h
        rcases sc? with _ | sc
        · simp at h
        · rcases hf : IGScraper.fetch w with _ | payload <;> rw [hf] at h
          · simp at h
          · simp only at h
            split at h
            · simp at h
            · rcases hp : IGScraper.parsePayload payload (IGScraper.read_url w) with e | m?
              · rw [hp] at h; simp at h
              · rw [hp] at h
                simp only [ebind_ok] at h
                rcases m? with _ | m
                · simp at h
                · simp only [epure] at h
                  refine ⟨m, ?_⟩
                  cases h
                  rfl

/-- Claim C4 (witness): a successful scraper run at a concrete world
prints a fragment built from a parsed record. -/
theorem claim_C4_witness :
    ∃ m : MetaRec,
      [("URL", Py.Val.str "https://www.instagram.com/p/HELLO9/"),
       ("Tags", Py.Val.list [Py.Val.dict [("Name", Py.Val.str "bob")]])] =
        IGScraper.buildFragment m :=
  claim_C4_output_shapes.2.2.2.2.2.2.2
    { stdin := "x"
      jsonLoads := .ok (.str "https://z//p/HELLO9")
      env_sessionid := Option.none
      igReq := .ok (200, .ok (.dict [("items", .list [.dict
        [("shortcode", .str "HELLO9"),
         ("owner", .dict [("username", .str "bob")])]])])) }
    [("URL", Py.Val.str "https://www.instagram.com/p/HELLO9/"),
     ("Tags", Py.Val.list [Py.Val.dict [("Name", Py.Val.str "bob")]])]
    rfl

/-- findKey skips a head entry with a different key. -/
theorem findKey_cons_ne (x : String × Py.Val) (rest : List (String × Py.Val))
    (k : String) (h : (x.1 == k) = false) :
    Py.findKey (x :: rest) k = Py.findKey rest k := by
  simp [Py.findKey, List.find?, h]

/-- findKey skips a whole prefix none of whose keys match. -/
theorem findKey_append_skip (l tail : List (String × Py.Val)) (k : String)
    (h : ∀ kv ∈ l, ¬kv.1 = k) :
    Py.findKey (l ++ tail) k = Py.findKey tail k := by
  induction l with
  | nil => simp
  | cons x xs ih =>
    rw [List.cons_append, findKey_cons_ne x _ k (by
      have := h x (by simp)
      simp_all)]
    exact ih (fun kv hkv => h kv (by simp [hkv]))

/-- Claim C5.  _ensure_tag queried with the username reuses the id of the
first existing tag when the allTags lookup (filtered server-side on name
equals username) is non-empty, and only otherwise creates one via
tagCreate with that name; when the parsed metadata has a truthy
username, the update sent by instagram_meta.main carries a tag_ids list
containing every tag id previously on the item, unchanged when some
previous id compares equal (Python ==) to the ensured id and with the
ensured id appended otherwise, and a tag was created exactly when the
run's createdTag observation carries the username; when the username is
falsy, no tag_ids key is sent and no tag is created. -/
theorem claim_C5_username_tag :
    (∀ (w : IGMeta.World) (name d e0 f tid : Py.Val),
      w.allTags name = .ok d → Py.get d "allTags" = .ok e0 →
      Py.truthy e0 = true →
      Py.index0 e0 = .ok f → Py.sub f "id" = .ok tid →
      IGMeta.ensure_tag w name = .ok (tid, false))
    ∧ (∀ (w : IGMeta.World) (name d e0 r tc tid : Py.Val),
        w.allTags name = .ok d → Py.get d "allTags" = .ok e0 →
        Py.truthy e0 = false →
        w.tagCreate name = .ok r → Py.sub r "tagCreate" = .ok tc →
        Py.sub tc "id" = .ok tid →
        IGMeta.ensure_tag w name = .ok (tid, true))
    ∧ (∀ (w : IGMeta.World) (ty : Py.Val) (iid : String) (ov : Bool)
         (item : Py.Val) (cand : Py.Val × Py.Val × Py.Val) (src : Py.Val)
         (sc : String) (meta : MetaRec) (l : List (String × Py.Val)),
        Py.truthy meta.username = false →
        (IGMeta.stage6 w ty iid ov item cand src sc meta).sentUpdate = some l →
        (∀ kv ∈ l, kv.1 ≠ "tag_ids")
        ∧ (IGMeta.stage6 w ty iid ov item cand src sc meta).createdTag = Option.none)
    ∧ (∀ (w : IGMeta.World) (ty : Py.Val) (iid : String) (ov : Bool)
         (item : Py.Val) (cand : Py.Val × Py.Val × Py.Val) (src : Py.Val)
         (sc : String) (meta : MetaRec) (tids : List Py.Val) (tid : Py.Val)
         (cr : Bool) (l : List (String × Py.Val)),
        Py.truthy meta.username = true →
        IGMeta.tagIds item = .ok tids →
        IGMeta.ensure_tag w meta.username = .ok (tid, cr) →
        (IGMeta.stage6 w ty iid ov item cand src sc meta).sentUpdate = some l →
        ∃ tl : List Py.Val,
          Py.findKey l "tag_ids" = some (.list tl)
          ∧ (∀ t ∈ tids, t ∈ tl)
          ∧ (tids.any (fun t => Py.eqVal t tid) = true → tl = tids)
          ∧ (tids.any (fun t => Py.eqVal t tid) = false → tl = tids ++ [tid])
          ∧ (IGMeta.stage6 w ty iid ov item cand src sc meta).createdTag =
              (if cr then some meta.username else Option.none)) := by
  refine ⟨?_, ?_, ?_, ?_⟩
  · intro w name d e0 f tid h1 h2 h3 h4 h5
    simp [IGMeta.ensure_tag, h1, h2, h3, h4, h5]
  · intro w name d e0 r tc tid h1 h2 h3 h4 h5 h6
    simp [IGMeta.ensure_tag, h1, h2, h3, h4, h5, h6,
      show Py.truthy (Py.Val.list []) = false from rfl]
  · intro w ty iid ov item cand src sc meta l hm hsent
    rcases h1 : IGMeta.condTitle ov item with e | tc
    · rw [IGMeta.stage6, h1] at hsent; simp [IGMeta.tryR] at hsent
    · rcases h2 : IGMeta.condDate ov item meta with e | dc
      · rw [IGMeta.stage6, h1, h2] at hsent; simp [IGMeta.tryR] at hsent
      · rcases h3 : IGMeta.condUrl ov item with e | uc
        · rw [IGMeta.stage6, h1, h2, h3] at hsent; simp [IGMeta.tryR] at hsent
        · rcases h4 : IGMeta.tagIds item with e | tids
          · rw [IGMeta.stage6, h1, h2, h3, h4] at hsent; simp [IGMeta.tryR] at hsent
          · rw [IGMeta.stage6, h1, h2, h3, h4] at hsent
            simp only [IGMeta.tryR, hm, Bool.false_eq_true, if_false] at hsent
            rw [IGMeta.stage6, h1, h2, h3, h4]
            simp only [IGMeta.tryR, hm, Bool.false_eq_true, if_false]
            rcases hu : w.updateRes with e | v <;>
              rw [IGMeta.finish, hu] at hsent ⊢ <;>
              simp only [Option.some.injEq] at hsent <;>
              refine ⟨?_, rfl⟩ <;>
              · intro kv hkv
                rw [← hsent] at hkv
                simp only [IGMeta.updateInput, List.mem_cons, List.mem_filter] at hkv
                rcases hkv with h | ⟨h, _⟩
                · rw [h]; simp
                · simp only [List.append_assoc, List.mem_append] at h
                  rcases h with h | h | h <;> split at h <;> simp_all
  · intro w ty iid ov item cand src sc meta tids tid cr l hm h4 hens hsent
    rcases h1 : IGMeta.condTitle ov item with e | tc
    · rw [IGMeta.stage6, h1] at hsent; simp [IGMeta.tryR] at hsent
    · rcases h2 : IGMeta.condDate ov item meta with e | dc
      · rw [IGMeta.stage6, h1, h2] at hsent; simp [IGMeta.tryR] at hsent
      · rcases h3 : IGMeta.condUrl ov item with e | uc
        · rw [IGMeta.stage6, h1, h2, h3] at hsent; simp [IGMeta.tryR] at hsent
        · rw [IGMeta.stage6, h1, h2, h3, h4] at hsent
          simp only [IGMeta.tryR, hm, if_true] at hsent
          rw [IGMeta.stage6, h1, h2, h3, h4]
          simp only [IGMeta.tryR, hm, if_true]
          rw [hens] at hsent ⊢
          simp only [IGMeta.tryR] at hsent ⊢
          have hkeys : ∀ kv ∈ (((if tc = true then [("title", meta.caption)] else []) ++
              (if dc = true then [("date", meta.date)] else [])) ++
              (if uc = true then [("url", meta.permalink)] else [])),
              ¬kv.1 = "tag_ids" := by
            intro kv h
            simp only [List.append_assoc, List.mem_append] at h
            rcases h with h | h | h <;> split at h <;> simp_all
          refine ⟨if tids.any (fun t => Py.eqVal t tid) then tids else tids ++ [tid],
            ?_, ?_, ?_, ?_, ?_⟩
          · rcases hu : w.updateRes with e | v <;>
              rw [IGMeta.finish, hu] at hsent <;>
              simp only [Option.some.injEq] at hsent <;>
              · rw [← hsent]
                simp only [IGMeta.updateInput]
                rw [List.filter_append]
                rw [findKey_cons_ne _ _ _ (by simp)]
                rw [findKey_append_skip _ _ _
                  (fun kv hkv => hkeys kv (List.mem_filter.mp hkv).1)]
                simp [Py.findKey, List.find?, List.filter, Py.isNone]
          · intro t ht
            split_ifs
            · exact ht
            · exact List.mem_append_left _ ht
          · intro ha; simp [ha]
          · intro ha; simp [ha]
          · rcases hu : w.updateRes with e | v <;>
              rw [IGMeta.finish, hu]

/-- Claim C5 (witness): a concrete run with one existing tag and a
username whose tag is created: tag_ids keeps the old id and appends the
new one, and the creation is observed. -/
theorem claim_C5_witness :
    ∃ tl : List Py.Val,
      Py.findKey [("id", Py.Val.str "7"), ("title", Py.Val.str ""),
          ("url", Py.Val.str "u"),
          ("tag_ids", Py.Val.list [Py.Val.str "t1", Py.Val.str "t9"])] "tag_ids"
        = some (.list tl)
      ∧ (∀ t ∈ [Py.Val.str "t1"], t ∈ tl)
      ∧ ([Py.Val.str "t1"].any (fun t => Py.eqVal t (Py.Val.str "t9")) = true →
          tl = [Py.Val.str "t1"])
      ∧ ([Py.Val.str "t1"].any (fun t => Py.eqVal t (Py.Val.str "t9")) = false →
          tl = [Py.Val.str "t1"] ++ [Py.Val.str "t9"])
      ∧ (IGMeta.stage6
          { stdin_parse := .ok .none, env_sessionid := Option.none,
            findItem := .ok .none, fs := fun _ => Option.none,
            igReq := .ok (200, .ok .none),
            allTags := fun _ => .ok (.dict [("allTags", .list [])]),
            tagCreate := fun _ => .ok (.dict [("tagCreate", .dict [("id", .str "t9")])]),
            updateRes := .ok (.dict []) }
          (.str "Scene") "7" false
          (.dict [("title", .str ""), ("url", .str ""),
            ("tags", .list [.dict [("id", .str "t1")]])])
          (.str "", .str "", Py.Val.none) (.str "u") "SC"
          { caption := .str "", date := Py.Val.none,
            username := .str "alice", permalink := .str "u" }).createdTag =
          (if true then some (Py.Val.str "alice") else Option.none) :=
  claim_C5_username_tag.2.2.2
    { stdin_parse := .ok .none, env_sessionid := Option.none,
      findItem := .ok .none, fs := fun _ => Option.none,
      igReq := .ok (200, .ok .none),
      allTags := fun _ => .ok (.dict [("allTags", .list [])]),
      tagCreate := fun _ => .ok (.dict [("tagCreate", .dict [("id", .str "t9")])]),
      updateRes := .ok (.dict []) }
    (.str "Scene") "7" false
    (.dict [("title", .str ""), ("url", .str ""),
      ("tags", .list [.dict [("id", .str "t1")]])])
    (.str "", .str "", Py.Val.none) (.str "u") "SC"
    { caption := .str "", date := Py.Val.none,
      username := .str "alice", permalink := .str "u" }
    [Py.Val.str "t1"] (Py.Val.str "t9") true
    [("id", Py.Val.str "7"), ("title", Py.Val.str ""),
     ("url", Py.Val.str "u"),
     ("tag_ids", Py.Val.list [Py.Val.str "t1", Py.Val.str "t9"])]
    rfl rfl rfl rfl

/-- Claim C8.  The update input always strips entries whose value is
None (and conversely keeps every non-None entry); every update sent by
the main workflow is of that stripped shape; and when overwrite is falsy
and the item already has truthy title, date and url, the sent update
contains no title, date or url field. -/
theorem claim_C8_overwrite_and_none_stripping :
    (∀ (iid : String) (updates : List (String × Py.Val)) (kv : String × Py.Val),
      kv ∈ IGMeta.updateInput iid updates → Py.isNone kv.2 = false)
    ∧ (∀ (iid : String) (updates : List (String × Py.Val)) (kv : String × Py.Val),
        kv ∈ updates → Py.isNone kv.2 = false →
        kv ∈ IGMeta.updateInput iid updates)
    ∧ (∀ (w : IGMeta.World) (ty : Py.Val) (iid : String) (ov : Bool)
         (item : Py.Val) (cand : Py.Val × Py.Val × Py.Val) (src : Py.Val)
         (sc : String) (meta : MetaRec) (l : List (String × Py.Val)),
        (IGMeta.stage6 w ty iid ov item cand src sc meta).sentUpdate = some l →
        ∃ (iid2 : String) (updates : List (String × Py.Val)),
          l = IGMeta.updateInput iid2 updates)
    ∧ (∀ (w : IGMeta.World) (ty : Py.Val) (iid : String) (item : Py.Val)
         (cand : Py.Val × Py.Val × Py.Val) (src : Py.Val) (sc : String)
         (meta : MetaRec) (l : List (String × Py.Val)) (tv dv uv : Py.Val),
        Py.get item "title" = .ok tv → Py.truthy tv = true →
        Py.get item "date" = .ok dv → Py.truthy dv = true →
        Py.get item "url" = .ok uv → Py.truthy uv = true →
        (IGMeta.stage6 w ty iid false item cand src sc meta).sentUpdate = some l →
        ∀ kv ∈ l, kv.1 ≠ "title" ∧ kv.1 ≠ "date" ∧ kv.1 ≠ "url") := by
  refine ⟨?_, ?_, ?_, ?_⟩
  · intro iid updates kv h
    simp only [IGMeta.updateInput, List.mem_cons, List.mem_filter] at h
    rcases h with h | ⟨_, h⟩
    · rw [h]; rfl
    · simpa using h
  · intro iid updates kv h hn
    simp only [IGMeta.updateInput, List.mem_cons, List.mem_filter]
    exact Or.inr ⟨h, by simpa using hn⟩
  · intro w ty iid ov item cand src sc meta l hsent
    rcases h1 : IGMeta.condTitle ov item with e | tc
    · rw [IGMeta.stage6, h1] at hsent; simp [IGMeta.tryR] at hsent
    · rcases h2 : IGMeta.condDate ov item meta with e | dc
      · rw [IGMeta.stage6, h1, h2] at hsent; simp [IGMeta.tryR] at hsent
      · rcases h3 : IGMeta.condUrl ov item with e | uc
        · rw [IGMeta.stage6, h1, h2, h3] at hsent; simp [IGMeta.tryR] at hsent
        · rcases h4 : IGMeta.tagIds item with e | tids
          · rw [IGMeta.stage6, h1, h2, h3, h4] at hsent; simp [IGMeta.tryR] at hsent
          · rw [IGMeta.stage6, h1, h2, h3, h4] at hsent
            simp only [IGMeta.tryR] at hsent
            by_cases hum : Py.truthy meta.username = true
            · rw [if_pos hum] at hsent
              rcases hens : IGMeta.ensure_tag w meta.username with e | utc
              · rw [hens] at hsent; simp [IGMeta.tryR] at hsent
              · rw [hens] at hsent
                simp only [IGMeta.tryR] at hsent
                rcases hu : w.updateRes with e | v <;>
                  rw [IGMeta.finish, hu] at hsent <;>
                  simp only [Option.some.injEq] at hsent <;>
                  exact ⟨iid, _, hsent.symm⟩
            · rw [if_neg hum] at hsent
              rcases hu : w.updateRes with e | v <;>
                rw [IGMeta.finish, hu] at hsent <;>
                simp only [Option.some.injEq] at hsent <;>
                exact ⟨iid, _, hsent.symm⟩
  · intro w ty iid item cand src sc meta l tv dv uv htv htvt hdv hdvt huv huvt hsent
    have hc1 : IGMeta.condTitle false item = .ok false := by
      simp [IGMeta.condTitle, htv, htvt]
    have hc2 : IGMeta.condDate false item meta = .ok false := by
      by_cases hmd : Py.truthy meta.date = true <;>
        simp [IGMeta.condDate, hmd, hdv, hdvt]
    have hc3 : IGMeta.condUrl false item = .ok false := by
      simp [IGMeta.condUrl, huv, huvt]
    rcases h4 : IGMeta.tagIds item with e | tids
    · rw [IGMeta.stage6, hc1, hc2, hc3, h4] at hsent; simp [IGMeta.tryR] at hsent
    · rw [IGMeta.stage6, hc1, hc2, hc3, h4] at hsent
      simp only [IGMeta.tryR, Bool.false_eq_true, if_false, List.nil_append] at hsent
      by_cases hum : Py.truthy meta.username = true
      · rw [if_pos hum] at hsent
        rcases hens : IGMeta.ensure_tag w meta.username with e | utc
        · rw [hens] at hsent; simp [IGMeta.tryR] at hsent
        · rw [hens] at hsent
          simp only [IGMeta.tryR] at hsent
          rcases hu : w.updateRes with e | v <;>
            rw [IGMeta.finish, hu] at hsent <;>
            simp only [Option.some.injEq] at hsent <;>
            · intro kv hkv
              rw [← hsent] at hkv
              simp only [IGMeta.updateInput, List.mem_cons, List.mem_filter,
                List.nil_append, List.mem_singleton] at hkv
              rcases hkv with h | ⟨h | h, _⟩
              · rw [h]; exact ⟨by simp, by simp, by simp⟩
              · rw [h]; exact ⟨by simp, by simp, by simp⟩
              · exact absurd h (by simp)
      · rw [if_neg hum] at hsent
        rcases hu : w.updateRes with e | v <;>
          rw [IGMeta.finish, hu] at hsent <;>
          simp only [Option.some.injEq] at hsent <;>
          · intro kv hkv
            rw [← hsent] at hkv
            simp only [IGMeta.updateInput, List.mem_cons, List.mem_filter,
              List.nil_append, List.not_mem_nil, List.filter_nil] at hkv
            rcases hkv with h | h
            · rw [h]; refine ⟨by simp, by simp, by simp⟩
            · exact absurd h (by simp)

/-- Claim C8 (witness): with overwrite falsy and an item whose title,
date and url are already set, the concrete sent update carries only the
id. -/
theorem claim_C8_witness :
    Prod.fst ("id", Py.Val.str "9") ≠ "title"
    ∧ Prod.fst ("id", Py.Val.str "9") ≠ "date"
    ∧ Prod.fst ("id", Py.Val.str "9") ≠ "url" :=
  claim_C8_overwrite_and_none_stripping.2.2.2
    { stdin_parse := .ok .none, env_sessionid := Option.none,
      findItem := .ok .none, fs := fun _ => Option.none,
      igReq := .ok (200, .ok .none),
      allTags := fun _ => .ok .none, tagCreate := fun _ => .ok .none,
      updateRes := .ok (.dict []) }
    (.str "Scene") "9"
    (.dict [("title", .str "T"), ("date", .str "D"), ("url", .str "U"),
      ("tags", .list [])])
    (.str "", .str "", Py.Val.none) (.str "p") "SC"
    { caption := .str "c", date := .str "2020-01-01",
      username := Py.Val.none, permalink := .str "p" }
    [("id", Py.Val.str "9")]
    (.str "T") (.str "D") (.str "U")
    rfl rfl rfl rfl rfl rfl rfl ("id", Py.Val.str "9") (by simp)
